import Mathlib

/-!
# cargo_loading_service: the session state machine

A shallow embedding of `src/src/cargo_loading_service.cpp`.

* The member fields `aw_state_`, `finalize_` and `facility_id_` of the node are the
  record `Node`.
* The locals of `execCargoLoading` that the timer lambda captures by reference
  (`finalizing_pub_limit`, `finalizing_pub_count`, `response`, the timer's cancel
  flag) together with the stream of published commands are the record `Session`.
* The timer and the two subscriptions share one `MutuallyExclusive` callback group
  (`callback_group_subscription_`), so a tick and the two notification handlers never
  overlap: a session is a sequence of `Event`s, each handled atomically.
* `execCargoLoading` blocks until the timer is cancelled and then resets
  `facility_id_` and `finalize_`; the events left over when the timer is cancelled are
  returned unconsumed (they belong to the time after the reset).
* `command_pub_hz_` is a `double`; it is embedded as a rational. Doubling a finite
  double is exact, so `command_pub_hz_ * 2.0` is the rational product. The cast to
  `int32_t` is defined only when the truncated product is an `int32_t`; the statements
  that say what the limit is carry that range as a hypothesis.
-/

namespace CargoLoading

/-- Modelled from the spec: the `aw_state` constants of `InParkingStatus`, whose message
definition is not among the sources. The source names `NONE`, `AW_EMERGENCY`,
`AW_OUT_OF_PARKING` and `AW_UNAVAILABLE`; every remaining value of the field is
`AW_OTHER` (the spec's "normal / other"). -/
inductive AwState
  | NONE
  | AW_EMERGENCY
  | AW_OUT_OF_PARKING
  | AW_UNAVAILABLE
  | AW_OTHER
  deriving DecidableEq, Repr

/-- Modelled from the spec: the three values the `state` field of a command takes,
`InfrastructureCommand::SEND_ZERO`, `CMD_STATE::ERROR` and `CMD_STATE::REQUESTING`
(declared in headers that are not among the sources). -/
inductive CmdState
  | SEND_ZERO
  | ERROR
  | REQUESTING
  deriving DecidableEq, Repr

/-- The `state` field of `ExecuteInParkingTask::Response`. -/
inductive TaskResult
  | SUCCESS
  | FAIL
  deriving DecidableEq, Repr

/-- One entry of an `InfrastructureStateArray`: the fields `onCargoLoadingState` reads. -/
structure InfrastructureState where
  id : String
  approval : Bool
  deriving DecidableEq, Repr

/-- A published `InfrastructureCommand` (its `type` is the constant `CMD_TYPE`, its
stamp is the clock's). -/
structure InfrastructureCommand where
  id : String
  state : CmdState
  deriving DecidableEq, Repr

/-- The member fields of `CargoLoadingService` that the callbacks read and write. -/
structure Node where
  aw_state : AwState
  finalize : Bool
  facility_id : String
  deriving DecidableEq, Repr

/-- The locals of `execCargoLoading` captured by the timer lambda, the timer's cancel
flag, and the commands published so far (oldest first). -/
structure Session where
  request_value : String
  finalizing_pub_limit : Int
  finalizing_pub_count : Int
  response : TaskResult
  canceled : Bool
  published : List InfrastructureCommand
  deriving DecidableEq, Repr

/-- `CargoLoadingService::getCommandState`: the command state and the node after the
call (the call may set `finalize_`). -/
def getCommandState (n : Node) : CmdState × Node :=
  if n.aw_state = AwState.AW_EMERGENCY then
    (CmdState.ERROR, n)
  else if n.aw_state = AwState.AW_OUT_OF_PARKING ∨ n.aw_state = AwState.AW_UNAVAILABLE then
    (CmdState.SEND_ZERO, if !n.finalize then { n with finalize := true } else n)
  else
    (CmdState.REQUESTING, n)

/-- The first half of the timer lambda: the command state it is about to publish and
the node after evaluating it, or `none` on the branch that records `FAIL` and returns. -/
def evalCommand (n : Node) : Option (CmdState × Node) :=
  if n.finalize then
    some (CmdState.SEND_ZERO, n)
  else if n.aw_state ≠ AwState.NONE then
    some (getCommandState n)
  else
    none

/-- The timer lambda of `execCargoLoading`: one tick. The counter is an `int32_t`; it is
incremented only while it is below the limit, so it never leaves the range of the limit
and no wrap-around can occur. -/
def timerCallback (n : Node) (s : Session) : Node × Session :=
  match evalCommand n with
  | none => (n, { s with response := TaskResult.FAIL, canceled := true })
  | some (st, n1) =>
    let s1 := { s with published := s.published ++ [{ id := s.request_value, state := st }] }
    if n1.finalize then
      if s1.finalizing_pub_limit > s1.finalizing_pub_count then
        (n1, { s1 with finalizing_pub_count := s1.finalizing_pub_count + 1 })
      else
        (n1, { s1 with canceled := true })
    else
      (n1, s1)

/-- `CargoLoadingService::onInParkingState`. -/
def onInParkingState (n : Node) (aw : AwState) : Node :=
  { n with aw_state := aw }

/-- The body of the loop of `onCargoLoadingState`, for one entry. -/
def onCargoLoadingEntry (n : Node) (state : InfrastructureState) : Node :=
  if state.id = n.facility_id ∧ state.approval = true ∧ n.aw_state ≠ AwState.AW_EMERGENCY then
    { n with finalize := true }
  else
    n

/-- `CargoLoadingService::onCargoLoadingState`. -/
def onCargoLoadingState (n : Node) (states : List InfrastructureState) : Node :=
  states.foldl onCargoLoadingEntry n

/-- What the executor can run in the subscription callback group. -/
inductive Event
  | tick
  | inParkingState (aw : AwState)
  | cargoLoadingState (states : List InfrastructureState)
  deriving DecidableEq, Repr

/-- The session loop: the events are handled in order until the timer is cancelled; the
events that were not consumed are returned with the final state. -/
def runTimer : Node → Session → List Event → Node × Session × List Event
  | n, s, [] => (n, s, [])
  | n, s, e :: es =>
    if s.canceled then (n, s, e :: es)
    else
      match e with
      | Event.tick => runTimer (timerCallback n s).1 (timerCallback n s).2 es
      | Event.inParkingState aw => runTimer (onInParkingState n aw) s es
      | Event.cargoLoadingState states => runTimer (onCargoLoadingState n states) s es

/-- The least `int32_t`. -/
def INT32_MIN : Int := -2147483648

/-- The greatest `int32_t`. -/
def INT32_MAX : Int := 2147483647

/-- `static_cast<int32_t>` of a double: truncation toward zero when the truncated value
is an `int32_t`. Outside that range the cast is undefined behaviour in C++; the value is
then taken to be `INT32_MIN`, what the x86-64 conversion instruction yields. The theorems
that say what the limit is restrict the rate to the range; the others are proved for an
arbitrary limit. -/
def truncToInt32 (q : ℚ) : Int :=
  if INT32_MIN ≤ Int.tdiv q.num q.den ∧ Int.tdiv q.num q.den ≤ INT32_MAX then
    Int.tdiv q.num q.den
  else
    INT32_MIN

/-- The `finalizing_pub_limit` of `execCargoLoading`. -/
def finalizingPubLimit (command_pub_hz : ℚ) : Int :=
  truncToInt32 (command_pub_hz * 2)

/-- The session state `execCargoLoading` sets up before the timer starts. -/
def initSession (command_pub_hz : ℚ) (request_value : String) : Session :=
  { request_value := request_value
    finalizing_pub_limit := finalizingPubLimit command_pub_hz
    finalizing_pub_count := 0
    response := TaskResult.SUCCESS
    canceled := false
    published := [] }

/-- What a returned `execCargoLoading` leaves behind. -/
structure Outcome where
  result : TaskResult
  published : List InfrastructureCommand
  node : Node
  rest : List Event
  deriving DecidableEq, Repr

/-- `CargoLoadingService::execCargoLoading`: `none` while the handler is still blocked in
its wait loop when the events run out. -/
def execCargoLoading (command_pub_hz : ℚ) (n : Node) (request_value : String)
    (es : List Event) : Option Outcome :=
  let r := runTimer { n with facility_id := request_value }
    (initSession command_pub_hz request_value) es
  if r.2.1.canceled then
    some { result := r.2.1.response
           published := r.2.1.published
           node := { r.1 with facility_id := "", finalize := false }
           rest := r.2.2 }
  else
    none

/-- The command states of a list of published commands. -/
def statesOf (cs : List InfrastructureCommand) : List CmdState :=
  cs.map InfrastructureCommand.state

/-- The node and session state at which each executed tick of a session was evaluated,
in order. -/
def tickStates : Node → Session → List Event → List (Node × Session)
  | _, _, [] => []
  | n, s, e :: es =>
    if s.canceled then []
    else
      match e with
      | Event.tick => (n, s) :: tickStates (timerCallback n s).1 (timerCallback n s).2 es
      | Event.inParkingState aw => tickStates (onInParkingState n aw) s es
      | Event.cargoLoadingState states => tickStates (onCargoLoadingState n states) s es

/-- The number of timer expirations in a list of events. -/
def countTicks : List Event → Nat
  | [] => 0
  | Event.tick :: es => countTicks es + 1
  | _ :: es => countTicks es

/-- The decision table of the spec's Command Policy (section 4.2, cases 1 to 5), written
from the spec's words: `none` is the FAIL signal of case 2. -/
def policyTable (finalizing : Bool) (v : AwState) : Option CmdState :=
  if finalizing then some CmdState.SEND_ZERO
  else
    match v with
    | AwState.NONE => none
    | AwState.AW_EMERGENCY => some CmdState.ERROR
    | AwState.AW_OUT_OF_PARKING => some CmdState.SEND_ZERO
    | AwState.AW_UNAVAILABLE => some CmdState.SEND_ZERO
    | AwState.AW_OTHER => some CmdState.REQUESTING

/-- The command an executed tick publishes from the state it is evaluated at, `none` on
the branch that records `FAIL`. -/
def tickCommand (p : Node × Session) : Option InfrastructureCommand :=
  (evalCommand p.1).map fun r => { id := p.2.request_value, state := r.1 }

/-- The executed ticks of a session that end with `finalize_` set: the ticks on which the
second half of the timer lambda looks at the counter. -/
def finalizingTicks (n : Node) (s : Session) (es : List Event) : List (Node × Session) :=
  (tickStates n s es).filter fun p => (timerCallback p.1 p.2).1.finalize

/-- The value of `finalize_` that each executed tick of a session finds. -/
def tickFlags (n : Node) (s : Session) (es : List Event) : List Bool :=
  (tickStates n s es).map fun p => p.1.finalize

/-- The spec's Status Tracker with a stored approval set (sections 3 and 4.1): the vehicle
status, the most recent facility approval set, and the session's finalizing flag. -/
structure StoredApprovalModel where
  status : AwState
  approvals : List InfrastructureState
  finalizing : Bool
  deriving DecidableEq, Repr

/-- The spec's `isFacilityApproved` (section 4.1), from the spec's words: the stored set
has an approved entry for the facility and the vehicle status is not emergency. -/
def isFacilityApproved (facilityId : String) (status : AwState)
    (approvals : List InfrastructureState) : Bool :=
  approvals.any (fun e => decide (e.id = facilityId) && e.approval) &&
    decide (status ≠ AwState.AW_EMERGENCY)

/-- The stored-approval model, from the spec's words: a notification overwrites the stored
value wholesale; a tick evaluation sets finalizing when the most recent set approves the
facility and the status is not emergency. The list is the flag each tick evaluates with;
after the evaluation the flag is also set by case 4 of the decision table. -/
def storedApprovalFlags (facilityId : String) :
    StoredApprovalModel → List Event → List Bool
  | _, [] => []
  | m, Event.tick :: es =>
    let fin := m.finalizing || isFacilityApproved facilityId m.status m.approvals
    let fin1 := fin || decide (m.status = AwState.AW_OUT_OF_PARKING ∨
      m.status = AwState.AW_UNAVAILABLE)
    fin :: storedApprovalFlags facilityId { m with finalizing := fin1 } es
  | m, Event.inParkingState aw :: es =>
    storedApprovalFlags facilityId { m with status := aw } es
  | m, Event.cargoLoadingState states :: es =>
    storedApprovalFlags facilityId { m with approvals := states } es

/-- The model that evaluates an approval when its notification arrives and stores nothing:
the vehicle status and the finalizing flag. -/
structure ArrivalModel where
  status : AwState
  finalizing : Bool
  deriving DecidableEq, Repr

/-- The arrival model: a facility notification sets finalizing when it has an approved
entry for the facility and the status at that moment is not emergency; a tick sets it by
case 4 of the decision table. The list is the flag each tick evaluates with. -/
def arrivalFlags (facilityId : String) : ArrivalModel → List Event → List Bool
  | _, [] => []
  | m, Event.tick :: es =>
    m.finalizing ::
      arrivalFlags facilityId
        { m with finalizing := m.finalizing || decide (m.status = AwState.AW_OUT_OF_PARKING ∨
            m.status = AwState.AW_UNAVAILABLE) } es
  | m, Event.inParkingState aw :: es =>
    arrivalFlags facilityId { m with status := aw } es
  | m, Event.cargoLoadingState states :: es =>
    arrivalFlags facilityId
      { m with finalizing := m.finalizing || isFacilityApproved facilityId m.status states } es

/-! ## Single-step facts -/

theorem evalCommand_finalize (n : Node) (h : n.finalize = true) :
    evalCommand n = some (CmdState.SEND_ZERO, n) := by
  simp [evalCommand, h]

theorem timerCallback_node_of_finalize (n : Node) (s : Session) (h : n.finalize = true) :
    (timerCallback n s).1 = n := by
  simp only [timerCallback, evalCommand_finalize n h, h]
  split_ifs <;> rfl

theorem timerCallback_published_of_finalize (n : Node) (s : Session) (h : n.finalize = true) :
    (timerCallback n s).2.published =
      s.published ++ [{ id := s.request_value, state := CmdState.SEND_ZERO }] := by
  simp only [timerCallback, evalCommand_finalize n h, h]
  split_ifs <;> rfl

theorem onInParkingState_finalize (n : Node) (aw : AwState) :
    (onInParkingState n aw).finalize = n.finalize := rfl

theorem onCargoLoadingEntry_finalize_of_true (n : Node) (st : InfrastructureState)
    (h : n.finalize = true) : (onCargoLoadingEntry n st).finalize = true := by
  unfold onCargoLoadingEntry
  split <;> simp [h]

theorem onCargoLoadingState_finalize_of_true (states : List InfrastructureState) :
    ∀ n : Node, n.finalize = true → (onCargoLoadingState n states).finalize = true := by
  induction states with
  | nil => intro n h; simpa [onCargoLoadingState] using h
  | cons st rest ih =>
    intro n h
    have := ih (onCargoLoadingEntry n st) (onCargoLoadingEntry_finalize_of_true n st h)
    simpa [onCargoLoadingState] using this

theorem runTimer_of_canceled (n : Node) (s : Session) (es : List Event)
    (h : s.canceled = true) : runTimer n s es = (n, s, es) := by
  cases es with
  | nil => rfl
  | cons e es => simp [runTimer, h]

theorem runTimer_tick (n : Node) (s : Session) (es : List Event) (h : s.canceled = false) :
    runTimer n s (Event.tick :: es) =
      runTimer (timerCallback n s).1 (timerCallback n s).2 es := by
  simp [runTimer, h]

theorem runTimer_inParkingState (n : Node) (s : Session) (aw : AwState) (es : List Event)
    (h : s.canceled = false) :
    runTimer n s (Event.inParkingState aw :: es) = runTimer (onInParkingState n aw) s es := by
  simp [runTimer, h]

theorem runTimer_cargoLoadingState (n : Node) (s : Session)
    (states : List InfrastructureState) (es : List Event) (h : s.canceled = false) :
    runTimer n s (Event.cargoLoadingState states :: es) =
      runTimer (onCargoLoadingState n states) s es := by
  simp [runTimer, h]

/-- Events that follow a consumed prefix are handled from the state the prefix left,
unless the prefix already cancelled the timer. -/
theorem runTimer_append (es1 es2 : List Event) :
    ∀ (n : Node) (s : Session),
      runTimer n s (es1 ++ es2) =
        if (runTimer n s es1).2.1.canceled then
          ((runTimer n s es1).1, (runTimer n s es1).2.1, (runTimer n s es1).2.2 ++ es2)
        else runTimer (runTimer n s es1).1 (runTimer n s es1).2.1 es2 := by
  induction es1 with
  | nil =>
    intro n s
    cases hc : s.canceled
    · simp [runTimer, hc]
    · simp [runTimer, hc, runTimer_of_canceled n s es2 hc]
  | cons e es ih =>
    intro n s
    cases hc : s.canceled
    · cases e with
      | tick => simp only [List.cons_append, runTimer_tick _ _ _ hc, ih]
      | inParkingState aw => simp only [List.cons_append, runTimer_inParkingState _ _ _ _ hc, ih]
      | cargoLoadingState sts =>
        simp only [List.cons_append, runTimer_cargoLoadingState _ _ _ _ hc, ih]
    · simp [runTimer_of_canceled _ _ _ hc, hc]

/-- While finalizing, the session only appends `SEND_ZERO` commands and the flag stays
set, whatever the events are. -/
theorem runTimer_finalize (es : List Event) :
    ∀ (n : Node) (s : Session), n.finalize = true →
      (runTimer n s es).1.finalize = true ∧
      ∃ k, statesOf (runTimer n s es).2.1.published =
        statesOf s.published ++ List.replicate k CmdState.SEND_ZERO := by
  induction es with
  | nil => intro n s h; exact ⟨h, 0, by simp [runTimer]⟩
  | cons e es ih =>
    intro n s h
    cases hc : s.canceled
    · cases e with
      | tick =>
        rw [runTimer_tick _ _ _ hc]
        have hn := timerCallback_node_of_finalize n s h
        obtain ⟨h1, k, hk⟩ := ih (timerCallback n s).1 (timerCallback n s).2 (by rw [hn]; exact h)
        refine ⟨h1, k + 1, ?_⟩
        rw [hk, timerCallback_published_of_finalize n s h]
        simp [statesOf, List.replicate_succ]
      | inParkingState aw =>
        rw [runTimer_inParkingState _ _ _ _ hc]
        exact ih _ s (by rw [onInParkingState_finalize]; exact h)
      | cargoLoadingState sts =>
        rw [runTimer_cargoLoadingState _ _ _ _ hc]
        exact ih _ s (onCargoLoadingState_finalize_of_true sts n h)
    · rw [runTimer_of_canceled _ _ _ hc]
      exact ⟨h, 0, by simp⟩

/-- The counter of a finalizing session: the timer is cancelled by the tick that finds
the counter at the limit, after `limit - count` counting ticks. -/
theorem runTimer_countdown (es : List Event) :
    ∀ (n : Node) (s : Session), n.finalize = true → s.canceled = false →
      ((runTimer n s es).2.1.canceled = true ↔
        (s.finalizing_pub_limit - s.finalizing_pub_count).toNat + 1 ≤ countTicks es) ∧
      statesOf (runTimer n s es).2.1.published =
        statesOf s.published ++
          List.replicate
            (min (countTicks es) ((s.finalizing_pub_limit - s.finalizing_pub_count).toNat + 1))
            CmdState.SEND_ZERO ∧
      (runTimer n s es).2.1.response = s.response := by
  induction es with
  | nil => intro n s _ hc; simp [runTimer, countTicks, hc]
  | cons e es ih =>
    intro n s h hc
    cases e with
    | tick =>
      rw [runTimer_tick _ _ _ hc]
      by_cases hlt : s.finalizing_pub_limit > s.finalizing_pub_count
      · have ht : timerCallback n s =
            (n, { s with
                    published := s.published ++
                      [{ id := s.request_value, state := CmdState.SEND_ZERO }]
                    finalizing_pub_count := s.finalizing_pub_count + 1 }) := by
          simp [timerCallback, evalCommand, h, hlt]
        simp only [ht]
        obtain ⟨h1, h2, h3⟩ := ih n
          { s with
              published := s.published ++
                [{ id := s.request_value, state := CmdState.SEND_ZERO }]
              finalizing_pub_count := s.finalizing_pub_count + 1 } h hc
        have e1 : (s.finalizing_pub_limit - s.finalizing_pub_count).toNat =
            (s.finalizing_pub_limit - (s.finalizing_pub_count + 1)).toNat + 1 := by omega
        refine ⟨?_, ?_, h3⟩
        · rw [h1]; simp only [countTicks]; omega
        · rw [h2]
          simp only [countTicks, statesOf, List.map_append, List.map_cons, List.map_nil,
            List.append_assoc, List.singleton_append]
          rw [e1, Nat.add_min_add_right, List.replicate_succ]
      · have ht : timerCallback n s =
            (n, { s with
                    published := s.published ++
                      [{ id := s.request_value, state := CmdState.SEND_ZERO }]
                    canceled := true }) := by
          simp [timerCallback, evalCommand, h, hlt]
        simp only [ht]
        rw [runTimer_of_canceled _ _ _ rfl]
        have e0 : (s.finalizing_pub_limit - s.finalizing_pub_count).toNat = 0 := by omega
        simp [countTicks, e0, statesOf]
    | inParkingState aw =>
      rw [runTimer_inParkingState _ _ _ _ hc]
      simpa [countTicks] using ih (onInParkingState n aw) s
        (by rw [onInParkingState_finalize]; exact h) hc
    | cargoLoadingState sts =>
      rw [runTimer_cargoLoadingState _ _ _ _ hc]
      simpa [countTicks] using ih (onCargoLoadingState n sts) s
        (onCargoLoadingState_finalize_of_true sts n h) hc

theorem finalizingPubLimit_five : finalizingPubLimit 5 = 10 := by
  have h : ((5 : ℚ) * 2) = ((10 : ℤ) : ℚ) := by norm_num
  simp only [finalizingPubLimit, truncToInt32, h, Rat.num_intCast, Rat.den_intCast]
  decide

theorem tickStates_of_canceled (n : Node) (s : Session) (es : List Event)
    (h : s.canceled = true) : tickStates n s es = [] := by
  cases es with
  | nil => rfl
  | cons e es => simp [tickStates, h]

theorem tickStates_tick (n : Node) (s : Session) (es : List Event) (h : s.canceled = false) :
    tickStates n s (Event.tick :: es) =
      (n, s) :: tickStates (timerCallback n s).1 (timerCallback n s).2 es := by
  simp [tickStates, h]

theorem tickStates_inParkingState (n : Node) (s : Session) (aw : AwState) (es : List Event)
    (h : s.canceled = false) :
    tickStates n s (Event.inParkingState aw :: es) = tickStates (onInParkingState n aw) s es := by
  simp [tickStates, h]

theorem tickStates_cargoLoadingState (n : Node) (s : Session)
    (states : List InfrastructureState) (es : List Event) (h : s.canceled = false) :
    tickStates n s (Event.cargoLoadingState states :: es) =
      tickStates (onCargoLoadingState n states) s es := by
  simp [tickStates, h]

theorem getCommandState_aw_state (n : Node) : (getCommandState n).2.aw_state = n.aw_state := by
  unfold getCommandState
  split_ifs <;> rfl

theorem getCommandState_facility_id (n : Node) :
    (getCommandState n).2.facility_id = n.facility_id := by
  unfold getCommandState
  split_ifs <;> rfl

/-- A tick either records `FAIL` and cancels (status `NONE`, not finalizing), or
publishes one command and leaves the response alone. -/
theorem timerCallback_cases (n : Node) (s : Session) :
    (n.finalize = false ∧ n.aw_state = AwState.NONE ∧
      timerCallback n s = (n, { s with response := TaskResult.FAIL, canceled := true })) ∨
    (¬ (n.finalize = false ∧ n.aw_state = AwState.NONE) ∧
      ∃ st n1, evalCommand n = some (st, n1) ∧
        (timerCallback n s).1 = n1 ∧
        n1.aw_state = n.aw_state ∧ n1.facility_id = n.facility_id ∧
        (timerCallback n s).2.published =
          s.published ++ [{ id := s.request_value, state := st }] ∧
        (timerCallback n s).2.response = s.response ∧
        (timerCallback n s).2.request_value = s.request_value ∧
        (timerCallback n s).2.finalizing_pub_limit = s.finalizing_pub_limit ∧
        ((timerCallback n s).2.canceled = true →
          s.canceled = false →
            n1.finalize = true ∧ ¬ (s.finalizing_pub_limit > s.finalizing_pub_count))) := by
  cases hf : n.finalize
  · by_cases ha : n.aw_state = AwState.NONE
    · left
      exact ⟨rfl, ha, by simp [timerCallback, evalCommand, hf, ha]⟩
    · right
      refine ⟨by simp [ha], (getCommandState n).1, (getCommandState n).2, ?_⟩
      have he : evalCommand n = some ((getCommandState n).1, (getCommandState n).2) := by
        simp [evalCommand, hf, ha]
      refine ⟨he, ?_⟩
      simp only [timerCallback, he]
      refine ⟨by split_ifs <;> rfl, getCommandState_aw_state n, getCommandState_facility_id n,
        by split_ifs <;> rfl, by split_ifs <;> rfl, by split_ifs <;> rfl,
        by split_ifs <;> rfl, ?_⟩
      split_ifs with h1 h2
      · intro hc hs; simp [hs] at hc
      · intro _ _; exact ⟨h1, h2⟩
      · intro hc hs; simp [hs] at hc
  · right
    refine ⟨by simp, CmdState.SEND_ZERO, n, evalCommand_finalize n hf, ?_⟩
    have ht : timerCallback n s =
        if s.finalizing_pub_limit > s.finalizing_pub_count then
          (n, { s with
                  published := s.published ++
                    [{ id := s.request_value, state := CmdState.SEND_ZERO }]
                  finalizing_pub_count := s.finalizing_pub_count + 1 })
        else
          (n, { s with
                  published := s.published ++
                    [{ id := s.request_value, state := CmdState.SEND_ZERO }]
                  canceled := true }) := by
      simp [timerCallback, evalCommand, hf]
    rw [ht]
    refine ⟨by split_ifs <;> rfl, rfl, rfl, by split_ifs <;> rfl, by split_ifs <;> rfl,
      by split_ifs <;> rfl, by split_ifs <;> rfl, ?_⟩
    split_ifs with h2
    · intro hc hs; simp [hs] at hc
    · intro _ _; exact ⟨hf, h2⟩

/-- The command a tick evaluates is the one the spec's decision table gives. -/
theorem evalCommand_policyTable (n : Node) :
    (evalCommand n).map Prod.fst = policyTable n.finalize n.aw_state := by
  cases hf : n.finalize <;> cases ha : n.aw_state <;>
    simp [evalCommand, getCommandState, policyTable, hf, ha]

theorem onCargoLoadingEntry_aw_state (n : Node) (st : InfrastructureState) :
    (onCargoLoadingEntry n st).aw_state = n.aw_state := by
  unfold onCargoLoadingEntry
  split_ifs <;> rfl

theorem onCargoLoadingState_aw_state (states : List InfrastructureState) :
    ∀ n : Node, (onCargoLoadingState n states).aw_state = n.aw_state := by
  induction states with
  | nil => intro n; rfl
  | cons st rest ih =>
    intro n
    have := ih (onCargoLoadingEntry n st)
    rw [onCargoLoadingEntry_aw_state] at this
    simpa [onCargoLoadingState] using this

/-- While the stored status is never `NONE`, no tick records `FAIL`. -/
theorem runTimer_known_status (es : List Event) :
    ∀ (n : Node) (s : Session), s.response = TaskResult.SUCCESS →
      n.aw_state ≠ AwState.NONE →
      (∀ aw, Event.inParkingState aw ∈ es → aw ≠ AwState.NONE) →
      (runTimer n s es).2.1.response = TaskResult.SUCCESS ∧
      ∀ p ∈ tickStates n s es,
        p.1.aw_state ≠ AwState.NONE ∧ p.2.response = TaskResult.SUCCESS ∧
          p.2.request_value = s.request_value := by
  induction es with
  | nil => intro n s hr _ _; exact ⟨by simpa [runTimer] using hr, by simp [tickStates]⟩
  | cons e es ih =>
    intro n s hr ha hes
    have hes1 : ∀ aw, Event.inParkingState aw ∈ es → aw ≠ AwState.NONE :=
      fun aw h => hes aw (List.mem_cons_of_mem _ h)
    cases hc : s.canceled
    · cases e with
      | tick =>
        rw [runTimer_tick _ _ _ hc, tickStates_tick _ _ _ hc]
        rcases timerCallback_cases n s with ⟨_, h0, _⟩ | ⟨_, st, n1, _, e1, e2, _, _, e5, e6, _⟩
        · exact absurd h0 ha
        · obtain ⟨i1, i2⟩ := ih (timerCallback n s).1 (timerCallback n s).2
            (by rw [e5]; exact hr) (by rw [e1, e2]; exact ha) hes1
          refine ⟨i1, ?_⟩
          intro p hp
          rcases List.mem_cons.mp hp with rfl | hp
          · exact ⟨ha, hr, rfl⟩
          · obtain ⟨j1, j2, j3⟩ := i2 p hp
            exact ⟨j1, j2, by rw [j3, e6]⟩
      | inParkingState aw =>
        rw [runTimer_inParkingState _ _ _ _ hc, tickStates_inParkingState _ _ _ _ hc]
        exact ih (onInParkingState n aw) s hr (hes aw (List.mem_cons_self _ _)) hes1
      | cargoLoadingState sts =>
        rw [runTimer_cargoLoadingState _ _ _ _ hc, tickStates_cargoLoadingState _ _ _ _ hc]
        exact ih (onCargoLoadingState n sts) s hr
          (by rw [onCargoLoadingState_aw_state]; exact ha) hes1
    · rw [runTimer_of_canceled _ _ _ hc, tickStates_of_canceled _ _ _ hc]
      exact ⟨hr, by simp⟩

/-- A session that ends was ended by its last executed tick. -/
theorem runTimer_terminating (es : List Event) :
    ∀ (n : Node) (s : Session), s.canceled = false →
      (runTimer n s es).2.1.canceled = true →
      ∃ init p, tickStates n s es = init ++ [p] ∧
        p.2.canceled = false ∧
        (timerCallback p.1 p.2).2.canceled = true ∧
        (runTimer n s es).2.1 = (timerCallback p.1 p.2).2 ∧
        (runTimer n s es).1 = (timerCallback p.1 p.2).1 ∧
        (s.response = TaskResult.SUCCESS → p.2.response = TaskResult.SUCCESS) ∧
        p.2.finalizing_pub_limit = s.finalizing_pub_limit := by
  induction es with
  | nil => intro n s hc h; simp [runTimer, hc] at h
  | cons e es ih =>
    intro n s hc h
    cases e with
    | tick =>
      rw [runTimer_tick _ _ _ hc] at h ⊢
      rw [tickStates_tick _ _ _ hc]
      cases hc1 : (timerCallback n s).2.canceled
      · obtain ⟨init, p, q1, q2, q3, q4, q5, q6, q7⟩ := ih _ _ hc1 h
        refine ⟨(n, s) :: init, p, by rw [q1]; rfl, q2, q3, q4, q5, ?_, ?_⟩
        · intro hr
          apply q6
          rcases timerCallback_cases n s with ⟨_, _, e0⟩ | ⟨_, _, _, _, _, _, _, _, e5, _⟩
          · rw [e0] at hc1; simp at hc1
          · rw [e5]; exact hr
        · rw [q7]
          rcases timerCallback_cases n s with ⟨_, _, e0⟩ | ⟨_, _, _, _, _, _, _, _, _, _, e7, _⟩
          · rw [e0]
          · exact e7
      · refine ⟨[], (n, s), ?_, hc, hc1, ?_, ?_, fun hr => hr, rfl⟩
        · rw [tickStates_of_canceled _ _ _ hc1]; rfl
        · rw [runTimer_of_canceled _ _ _ hc1]
        · rw [runTimer_of_canceled _ _ _ hc1]
    | inParkingState aw =>
      rw [runTimer_inParkingState _ _ _ _ hc] at h ⊢
      rw [tickStates_inParkingState _ _ _ _ hc]
      exact ih _ _ hc h
    | cargoLoadingState sts =>
      rw [runTimer_cargoLoadingState _ _ _ _ hc] at h ⊢
      rw [tickStates_cargoLoadingState _ _ _ _ hc]
      exact ih _ _ hc h

/-- For a rate that is not negative the cast truncates to the floor of twice the rate. -/
theorem finalizingPubLimit_eq_floor (hz : ℚ) (h : 0 ≤ hz) (hr : hz * 2 < 2147483648) :
    finalizingPubLimit hz = ⌊hz * 2⌋ := by
  have h2 : 0 ≤ hz * 2 := by positivity
  have hnum : 0 ≤ (hz * 2).num := Rat.num_nonneg.mpr h2
  have ht : Int.tdiv (hz * 2).num (hz * 2).den = ⌊hz * 2⌋ := by
    rw [Int.tdiv_eq_ediv hnum (Int.ofNat_nonneg _), Rat.floor_def]
  have hlo : (0 : Int) ≤ ⌊hz * 2⌋ := Int.floor_nonneg.mpr h2
  have hhi : ⌊hz * 2⌋ < 2147483648 := Int.floor_lt.mpr (by exact_mod_cast hr)
  simp only [finalizingPubLimit, truncToInt32, ht, INT32_MIN, INT32_MAX]
  rw [if_pos ⟨by omega, by omega⟩]

theorem onCargoLoadingEntry_facility_id (n : Node) (st : InfrastructureState) :
    (onCargoLoadingEntry n st).facility_id = n.facility_id := by
  unfold onCargoLoadingEntry
  split_ifs <;> rfl

theorem onCargoLoadingState_facility_id (states : List InfrastructureState) :
    ∀ n : Node, (onCargoLoadingState n states).facility_id = n.facility_id := by
  induction states with
  | nil => intro n; rfl
  | cons st rest ih =>
    intro n
    have := ih (onCargoLoadingEntry n st)
    rw [onCargoLoadingEntry_facility_id] at this
    simpa [onCargoLoadingState] using this

/-- The loop of `onCargoLoadingState` in closed form: the flag is set exactly when some
entry carries the facility's id with `approval` set and the status is not emergency. -/
theorem onCargoLoadingState_eq (states : List InfrastructureState) :
    ∀ n : Node, onCargoLoadingState n states =
      if (∃ st ∈ states, st.id = n.facility_id ∧ st.approval = true) ∧
          n.aw_state ≠ AwState.AW_EMERGENCY then
        { n with finalize := true }
      else n := by
  induction states with
  | nil => intro n; simp [onCargoLoadingState]
  | cons st rest ih =>
    intro n
    have hstep : onCargoLoadingState n (st :: rest) =
        onCargoLoadingState (onCargoLoadingEntry n st) rest := rfl
    by_cases hm : st.id = n.facility_id ∧ st.approval = true ∧
        n.aw_state ≠ AwState.AW_EMERGENCY
    · have he : onCargoLoadingEntry n st = { n with finalize := true } := by
        simp [onCargoLoadingEntry, hm]
      have hex : ∃ x ∈ st :: rest, x.id = n.facility_id ∧ x.approval = true :=
        ⟨st, List.mem_cons_self _ _, hm.1, hm.2.1⟩
      rw [if_pos ⟨hex, hm.2.2⟩, hstep, he, ih]
      split_ifs <;> rfl
    · have he : onCargoLoadingEntry n st = n := by
        simp only [onCargoLoadingEntry, if_neg hm]
      rw [hstep, he, ih]
      by_cases ha : n.aw_state = AwState.AW_EMERGENCY
      · simp [ha]
      · have hst : ¬ (st.id = n.facility_id ∧ st.approval = true) :=
          fun h => hm ⟨h.1, h.2, ha⟩
        have hiff : (∃ x ∈ st :: rest, x.id = n.facility_id ∧ x.approval = true) ↔
            ∃ x ∈ rest, x.id = n.facility_id ∧ x.approval = true := by
          constructor
          · rintro ⟨x, hx, hp⟩
            rcases List.mem_cons.mp hx with rfl | hx
            · exact absurd hp hst
            · exact ⟨x, hx, hp⟩
          · rintro ⟨x, hx, hp⟩
            exact ⟨x, List.mem_cons_of_mem _ hx, hp⟩
        simp only [hiff]

theorem isFacilityApproved_iff (facilityId : String) (status : AwState)
    (approvals : List InfrastructureState) :
    isFacilityApproved facilityId status approvals = true ↔
      (∃ st ∈ approvals, st.id = facilityId ∧ st.approval = true) ∧
        status ≠ AwState.AW_EMERGENCY := by
  simp [isFacilityApproved, List.any_eq_true]

theorem onCargoLoadingState_finalize (n : Node) (states : List InfrastructureState) :
    (onCargoLoadingState n states).finalize =
      (n.finalize || isFacilityApproved n.facility_id n.aw_state states) := by
  rw [onCargoLoadingState_eq]
  by_cases h : (∃ st ∈ states, st.id = n.facility_id ∧ st.approval = true) ∧
      n.aw_state ≠ AwState.AW_EMERGENCY
  · rw [if_pos h, (isFacilityApproved_iff _ _ _).mpr h]
    simp
  · rw [if_neg h]
    have : isFacilityApproved n.facility_id n.aw_state states = false := by
      rw [← Bool.not_eq_true, isFacilityApproved_iff]
      exact h
    rw [this]
    simp

/-- The node after a tick in closed form: only `finalize_` can change, and it is set
exactly by the out-of-parking and unavailable statuses. -/
theorem timerCallback_node (n : Node) (s : Session) :
    (timerCallback n s).1 =
      { n with finalize := n.finalize || decide (n.aw_state = AwState.AW_OUT_OF_PARKING ∨
          n.aw_state = AwState.AW_UNAVAILABLE) } := by
  obtain ⟨aw, f, fid⟩ := n
  cases f
  · cases aw <;> simp [timerCallback, evalCommand, getCommandState] <;> split_ifs <;> rfl
  · rw [timerCallback_node_of_finalize _ _ rfl]
    simp

/-- The flags the executed ticks find are the flags of the arrival model. -/
theorem tickFlags_prefix_arrivalFlags (es : List Event) :
    ∀ (n : Node) (s : Session),
      tickFlags n s es <+: arrivalFlags n.facility_id ⟨n.aw_state, n.finalize⟩ es := by
  induction es with
  | nil => intro n s; simp [tickFlags, tickStates, arrivalFlags]
  | cons e es ih =>
    intro n s
    cases hc : s.canceled
    · cases e with
      | tick =>
        have h1 := ih (timerCallback n s).1 (timerCallback n s).2
        have hn := timerCallback_node n s
        have e1 : (timerCallback n s).1.facility_id = n.facility_id := by rw [hn]
        have e2 : (timerCallback n s).1.aw_state = n.aw_state := by rw [hn]
        have e3 : (timerCallback n s).1.finalize =
            (n.finalize || decide (n.aw_state = AwState.AW_OUT_OF_PARKING ∨
              n.aw_state = AwState.AW_UNAVAILABLE)) := by rw [hn]
        rw [e1, e2, e3] at h1
        simp only [tickFlags, tickStates_tick _ _ _ hc, List.map_cons, arrivalFlags]
        rw [List.cons_prefix_cons]
        exact ⟨rfl, h1⟩
      | inParkingState aw =>
        have h1 := ih (onInParkingState n aw) s
        simp only [tickFlags, tickStates_inParkingState _ _ _ _ hc, arrivalFlags]
        exact h1
      | cargoLoadingState sts =>
        have h1 := ih (onCargoLoadingState n sts) s
        rw [onCargoLoadingState_facility_id, onCargoLoadingState_aw_state,
          onCargoLoadingState_finalize] at h1
        simp only [tickFlags, tickStates_cargoLoadingState _ _ _ _ hc, arrivalFlags]
        exact h1
    · simp [tickFlags, tickStates_of_canceled _ _ _ hc]

theorem tickCommand_eq_none_iff (n : Node) (s : Session) :
    tickCommand (n, s) = none ↔ (n.finalize = false ∧ n.aw_state = AwState.NONE) := by
  cases hf : n.finalize <;> by_cases ha : n.aw_state = AwState.NONE <;>
    simp [tickCommand, evalCommand, hf, ha]

/-- A tick that ends with `finalize_` set publishes `SEND_ZERO`. -/
theorem tickCommand_of_finalize_after (n : Node) (s : Session)
    (h : (timerCallback n s).1.finalize = true) :
    ∃ c, tickCommand (n, s) = some c ∧ c.state = CmdState.SEND_ZERO := by
  rw [timerCallback_node] at h
  obtain ⟨aw, f, fid⟩ := n
  cases f <;> cases aw <;>
    simp_all [tickCommand, evalCommand, getCommandState]

theorem finalize_after_of_tickCommand_none (n : Node) (s : Session)
    (h : tickCommand (n, s) = none) : (timerCallback n s).1.finalize = false := by
  obtain ⟨hf, ha⟩ := (tickCommand_eq_none_iff n s).mp h
  rw [timerCallback_node]
  simp [hf, ha]

/-- The session after a tick, by the command the tick publishes and the flag it ends
with. -/
theorem timerCallback_session (n : Node) (s : Session) :
    (timerCallback n s).2 =
      match tickCommand (n, s) with
      | none => { s with response := TaskResult.FAIL, canceled := true }
      | some c =>
        if (timerCallback n s).1.finalize then
          if s.finalizing_pub_limit > s.finalizing_pub_count then
            { s with published := s.published ++ [c]
                     finalizing_pub_count := s.finalizing_pub_count + 1 }
          else
            { s with published := s.published ++ [c], canceled := true }
        else
          { s with published := s.published ++ [c] } := by
  simp only [timerCallback, tickCommand]
  cases evalCommand n with
  | none => rfl
  | some r =>
    obtain ⟨st, n1⟩ := r
    simp only [Option.map_some']
    split_ifs <;> rfl

theorem finalizingTicks_of_canceled (n : Node) (s : Session) (es : List Event)
    (h : s.canceled = true) : finalizingTicks n s es = [] := by
  simp [finalizingTicks, tickStates_of_canceled n s es h]

theorem finalizingTicks_tick (n : Node) (s : Session) (es : List Event)
    (h : s.canceled = false) :
    finalizingTicks n s (Event.tick :: es) =
      if (timerCallback n s).1.finalize = true then
        (n, s) :: finalizingTicks (timerCallback n s).1 (timerCallback n s).2 es
      else finalizingTicks (timerCallback n s).1 (timerCallback n s).2 es := by
  simp only [finalizingTicks, tickStates_tick n s es h, List.filter_cons]

theorem finalizingTicks_inParkingState (n : Node) (s : Session) (aw : AwState)
    (es : List Event) (h : s.canceled = false) :
    finalizingTicks n s (Event.inParkingState aw :: es) =
      finalizingTicks (onInParkingState n aw) s es := by
  simp only [finalizingTicks, tickStates_inParkingState n s aw es h]

theorem finalizingTicks_cargoLoadingState (n : Node) (s : Session)
    (states : List InfrastructureState) (es : List Event) (h : s.canceled = false) :
    finalizingTicks n s (Event.cargoLoadingState states :: es) =
      finalizingTicks (onCargoLoadingState n states) s es := by
  simp only [finalizingTicks, tickStates_cargoLoadingState n s states es h]

/-- The counter and the ticks that end with `finalize_` set: there are at most
`limit - count + 1` of them from any running state, the timer is cancelled with the
response untouched exactly when there are that many, and the counter stays between its
current value and the limit. -/
theorem runTimer_finalizingTicks (es : List Event) :
    ∀ (n : Node) (s : Session), s.canceled = false → s.response = TaskResult.SUCCESS →
      s.finalizing_pub_count ≤ s.finalizing_pub_limit →
      (finalizingTicks n s es).length ≤
        (s.finalizing_pub_limit - s.finalizing_pub_count).toNat + 1 ∧
      (((runTimer n s es).2.1.canceled = true ∧
          (runTimer n s es).2.1.response = TaskResult.SUCCESS) ↔
        (finalizingTicks n s es).length =
          (s.finalizing_pub_limit - s.finalizing_pub_count).toNat + 1) ∧
      (s.finalizing_pub_count ≤ (runTimer n s es).2.1.finalizing_pub_count ∧
        (runTimer n s es).2.1.finalizing_pub_count ≤ s.finalizing_pub_limit) ∧
      ∀ p ∈ tickStates n s es,
        p.2.finalizing_pub_limit = s.finalizing_pub_limit ∧
        s.finalizing_pub_count ≤ p.2.finalizing_pub_count ∧
        p.2.finalizing_pub_count ≤ s.finalizing_pub_limit := by
  induction es with
  | nil =>
    intro n s hc hr hle
    simp [finalizingTicks, tickStates, runTimer, hc, hle]
  | cons e es ih =>
    intro n s hc hr hle
    cases e with
    | tick =>
      rw [runTimer_tick _ _ _ hc, finalizingTicks_tick _ _ _ hc, tickStates_tick _ _ _ hc]
      have hs := timerCallback_session n s
      cases hcmd : tickCommand (n, s) with
      | none =>
        rw [hcmd] at hs
        have hfa := finalize_after_of_tickCommand_none n s hcmd
        have hcan : (timerCallback n s).2.canceled = true := by rw [hs]
        rw [runTimer_of_canceled _ _ _ hcan, finalizingTicks_of_canceled _ _ _ hcan,
          tickStates_of_canceled _ _ _ hcan]
        simp [hfa, hs, hle]
      | some c =>
        rw [hcmd] at hs
        cases hfa : (timerCallback n s).1.finalize
        · simp only [hfa, Bool.false_eq_true, if_false] at hs ⊢
          have h1 := ih (timerCallback n s).1 (timerCallback n s).2 (by rw [hs]; exact hc)
            (by rw [hs]; exact hr) (by rw [hs]; exact hle)
          rw [hs] at h1 ⊢
          obtain ⟨a1, a2, a3, a4⟩ := h1
          refine ⟨a1, a2, a3, ?_⟩
          intro p hp
          rcases List.mem_cons.mp hp with rfl | hp
          · exact ⟨rfl, le_refl _, hle⟩
          · exact a4 p hp
        · by_cases hlt : s.finalizing_pub_limit > s.finalizing_pub_count
          · simp only [hfa, if_true, hlt] at hs ⊢
            have h1 := ih (timerCallback n s).1 (timerCallback n s).2 (by rw [hs]; exact hc)
              (by rw [hs]; exact hr) (by
                rw [hs]
                show s.finalizing_pub_count + 1 ≤ s.finalizing_pub_limit
                omega)
            rw [hs] at h1 ⊢
            obtain ⟨a1, a2, a3, a4⟩ := h1
            simp only [] at a1 a2 a3 a4
            have e1 : (s.finalizing_pub_limit - s.finalizing_pub_count).toNat =
                (s.finalizing_pub_limit - (s.finalizing_pub_count + 1)).toNat + 1 := by omega
            refine ⟨?_, ?_, ?_, ?_⟩
            · rw [List.length_cons, e1]; omega
            · rw [a2, List.length_cons, e1]; omega
            · omega
            · intro p hp
              rcases List.mem_cons.mp hp with rfl | hp
              · exact ⟨rfl, le_refl _, hle⟩
              · obtain ⟨b1, b2, b3⟩ := a4 p hp
                exact ⟨b1, by omega, b3⟩
          · simp only [hfa, if_true, hlt, if_false] at hs ⊢
            have hcan : (timerCallback n s).2.canceled = true := by rw [hs]
            rw [runTimer_of_canceled _ _ _ hcan, finalizingTicks_of_canceled _ _ _ hcan,
              tickStates_of_canceled _ _ _ hcan]
            have e0 : (s.finalizing_pub_limit - s.finalizing_pub_count).toNat = 0 := by omega
            simp [hs, e0, hr, hle]
    | inParkingState aw =>
      rw [runTimer_inParkingState _ _ _ _ hc, finalizingTicks_inParkingState _ _ _ _ hc,
        tickStates_inParkingState _ _ _ _ hc]
      exact ih _ s hc hr hle
    | cargoLoadingState sts =>
      rw [runTimer_cargoLoadingState _ _ _ _ hc, finalizingTicks_cargoLoadingState _ _ _ _ hc,
        tickStates_cargoLoadingState _ _ _ _ hc]
      exact ih _ s hc hr hle

/-- A session that ends with `FAIL` never had `finalize_` set: its last executed tick
published nothing, and each earlier tick found a status other than `NONE` and published
one command. -/
theorem runTimer_fail (es : List Event) :
    ∀ (n : Node) (s : Session), s.canceled = false → s.response = TaskResult.SUCCESS →
      (runTimer n s es).2.1.response = TaskResult.FAIL →
      n.finalize = false ∧ finalizingTicks n s es = [] ∧
      ∃ init p, tickStates n s es = init ++ [p] ∧ tickCommand p = none ∧
        (runTimer n s es).2.1.published = s.published ++ init.filterMap tickCommand ∧
        (init.filterMap tickCommand).length = init.length ∧
        ∀ q ∈ init, q.1.finalize = false ∧ q.1.aw_state ≠ AwState.NONE ∧
          (tickCommand q).isSome = true := by
  induction es with
  | nil =>
    intro n s _ hr hf
    simp [runTimer, hr] at hf
  | cons e es ih =>
    intro n s hc hr hf
    have hnf : n.finalize = false := by
      cases hfin : n.finalize
      · rfl
      · have := (runTimer_countdown (e :: es) n s hfin hc).2.2
        rw [this, hr] at hf
        cases hf
    refine ⟨hnf, ?_⟩
    cases e with
    | tick =>
      rw [runTimer_tick _ _ _ hc] at hf ⊢
      rw [finalizingTicks_tick _ _ _ hc, tickStates_tick _ _ _ hc]
      have hs := timerCallback_session n s
      cases hcmd : tickCommand (n, s) with
      | none =>
        rw [hcmd] at hs
        have hfa := finalize_after_of_tickCommand_none n s hcmd
        have hcan : (timerCallback n s).2.canceled = true := by rw [hs]
        rw [runTimer_of_canceled _ _ _ hcan, finalizingTicks_of_canceled _ _ _ hcan,
          tickStates_of_canceled _ _ _ hcan]
        refine ⟨by simp [hfa], [], (n, s), rfl, hcmd, by simp [hs], rfl, by simp⟩
      | some c =>
        rw [hcmd] at hs
        have hcan : (timerCallback n s).2.canceled = false := by
          cases hcan : (timerCallback n s).2.canceled
          · rfl
          · rw [runTimer_of_canceled _ _ _ hcan] at hf
            have : (timerCallback n s).2.response = s.response := by
              rw [hs]; split_ifs <;> rfl
            rw [this, hr] at hf
            cases hf
        have hresp : (timerCallback n s).2.response = TaskResult.SUCCESS := by
          rw [hs]; split_ifs <;> exact hr
        obtain ⟨i1, i2, init, p, i3, i4, i5, i6, i7⟩ :=
          ih (timerCallback n s).1 (timerCallback n s).2 hcan hresp hf
        have hpub : (timerCallback n s).2.published = s.published ++ [c] := by
          rw [hs]; split_ifs <;> rfl
        have hne : n.aw_state ≠ AwState.NONE := by
          intro ha
          have := (tickCommand_eq_none_iff n s).mpr ⟨hnf, ha⟩
          rw [hcmd] at this
          cases this
        refine ⟨by simp [i1, i2], (n, s) :: init, p, by rw [i3]; rfl, i4, ?_, ?_, ?_⟩
        · rw [i5, hpub, List.filterMap_cons, hcmd]
          simp
        · rw [List.filterMap_cons, hcmd]
          simp [i6]
        · intro q hq
          rcases List.mem_cons.mp hq with rfl | hq
          · exact ⟨hnf, hne, by rw [hcmd]; rfl⟩
          · exact i7 q hq
    | inParkingState aw =>
      rw [runTimer_inParkingState _ _ _ _ hc] at hf ⊢
      rw [finalizingTicks_inParkingState _ _ _ _ hc, tickStates_inParkingState _ _ _ _ hc]
      exact (ih _ s hc hr hf).2
    | cargoLoadingState sts =>
      rw [runTimer_cargoLoadingState _ _ _ _ hc] at hf ⊢
      rw [finalizingTicks_cargoLoadingState _ _ _ _ hc,
        tickStates_cargoLoadingState _ _ _ _ hc]
      exact (ih _ s hc hr hf).2

theorem evalCommand_zero_of_finalize_after (n n1 : Node) (st : CmdState)
    (h : evalCommand n = some (st, n1)) (hf : n1.finalize = true) :
    st = CmdState.SEND_ZERO := by
  obtain ⟨aw, f, fid⟩ := n
  cases f <;> cases aw <;> simp [evalCommand, getCommandState] at h <;>
    first
    | exact h.1.symm
    | (obtain ⟨_, h2⟩ := h; rw [← h2] at hf; simp at hf)

theorem tickCommand_id (p : Node × Session) (c : InfrastructureCommand)
    (h : tickCommand p = some c) : c.id = p.2.request_value := by
  simp only [tickCommand, Option.map_eq_some'] at h
  obtain ⟨r, _, hr⟩ := h
  rw [← hr]

theorem timerCallback_request_value (n : Node) (s : Session) :
    (timerCallback n s).2.request_value = s.request_value := by
  rw [timerCallback_session]
  split
  · rfl
  · split_ifs <;> rfl

theorem tickStates_request_value (es : List Event) :
    ∀ (n : Node) (s : Session), ∀ p ∈ tickStates n s es,
      p.2.request_value = s.request_value := by
  induction es with
  | nil => intro n s p hp; simp [tickStates] at hp
  | cons e es ih =>
    intro n s p hp
    cases hc : s.canceled
    · cases e with
      | tick =>
        rw [tickStates_tick _ _ _ hc] at hp
        rcases List.mem_cons.mp hp with rfl | hp
        · rfl
        · rw [ih _ _ p hp, timerCallback_request_value]
      | inParkingState aw =>
        rw [tickStates_inParkingState _ _ _ _ hc] at hp
        exact ih _ _ p hp
      | cargoLoadingState sts =>
        rw [tickStates_cargoLoadingState _ _ _ _ hc] at hp
        exact ih _ _ p hp
    · rw [tickStates_of_canceled _ _ _ hc] at hp
      simp at hp

/-- The published stream of a session is the commands of its executed ticks, in order. -/
theorem runTimer_published (es : List Event) :
    ∀ (n : Node) (s : Session),
      (runTimer n s es).2.1.published =
        s.published ++ (tickStates n s es).filterMap tickCommand := by
  induction es with
  | nil => intro n s; simp [runTimer, tickStates]
  | cons e es ih =>
    intro n s
    cases hc : s.canceled
    · cases e with
      | tick =>
        rw [runTimer_tick _ _ _ hc, tickStates_tick _ _ _ hc, ih, List.filterMap_cons]
        have hs := timerCallback_session n s
        cases hcmd : tickCommand (n, s) with
        | none =>
          rw [hcmd] at hs
          have hcan : (timerCallback n s).2.canceled = true := by rw [hs]
          rw [tickStates_of_canceled _ _ _ hcan, hs]
        | some c =>
          rw [hcmd] at hs
          have hpub : (timerCallback n s).2.published = s.published ++ [c] := by
            rw [hs]; split_ifs <;> rfl
          rw [hpub]
          simp
      | inParkingState aw =>
        rw [runTimer_inParkingState _ _ _ _ hc, tickStates_inParkingState _ _ _ _ hc, ih]
      | cargoLoadingState sts =>
        rw [runTimer_cargoLoadingState _ _ _ _ hc, tickStates_cargoLoadingState _ _ _ _ hc, ih]
    · rw [runTimer_of_canceled _ _ _ hc, tickStates_of_canceled _ _ _ hc]
      simp

/-- From a node with `finalize_` set every executed tick ends with it set. -/
theorem finalizingTicks_of_finalize (es : List Event) :
    ∀ (n : Node) (s : Session), n.finalize = true →
      finalizingTicks n s es = tickStates n s es := by
  induction es with
  | nil => intro n s _; rfl
  | cons e es ih =>
    intro n s h
    cases hc : s.canceled
    · cases e with
      | tick =>
        have hn := timerCallback_node_of_finalize n s h
        have hf : (timerCallback n s).1.finalize = true := by rw [hn]; exact h
        rw [finalizingTicks_tick _ _ _ hc, tickStates_tick _ _ _ hc, if_pos hf, ih _ _ hf]
      | inParkingState aw =>
        rw [finalizingTicks_inParkingState _ _ _ _ hc, tickStates_inParkingState _ _ _ _ hc]
        exact ih _ s (by rw [onInParkingState_finalize]; exact h)
      | cargoLoadingState sts =>
        rw [finalizingTicks_cargoLoadingState _ _ _ _ hc,
          tickStates_cargoLoadingState _ _ _ _ hc]
        exact ih _ s (onCargoLoadingState_finalize_of_true sts n h)
    · rw [finalizingTicks_of_canceled _ _ _ hc, tickStates_of_canceled _ _ _ hc]

/-- The ticks that end with `finalize_` set are the last ticks of the session: every
executed tick before them ends with the flag clear. -/
theorem tickStates_split (es : List Event) :
    ∀ (n : Node) (s : Session),
      ∃ pre, tickStates n s es = pre ++ finalizingTicks n s es ∧
        ∀ q ∈ pre, (timerCallback q.1 q.2).1.finalize = false := by
  induction es with
  | nil => intro n s; exact ⟨[], rfl, by simp⟩
  | cons e es ih =>
    intro n s
    cases hc : s.canceled
    · cases e with
      | tick =>
        rw [finalizingTicks_tick _ _ _ hc, tickStates_tick _ _ _ hc]
        cases hf : (timerCallback n s).1.finalize
        · obtain ⟨pre, h1, h2⟩ := ih (timerCallback n s).1 (timerCallback n s).2
          refine ⟨(n, s) :: pre, by simp [h1], ?_⟩
          intro q hq
          rcases List.mem_cons.mp hq with rfl | hq
          · exact hf
          · exact h2 q hq
        · refine ⟨[], ?_, by simp⟩
          rw [finalizingTicks_of_finalize es _ _ hf]
          simp
      | inParkingState aw =>
        rw [finalizingTicks_inParkingState _ _ _ _ hc, tickStates_inParkingState _ _ _ _ hc]
        exact ih _ s
      | cargoLoadingState sts =>
        rw [finalizingTicks_cargoLoadingState _ _ _ _ hc,
          tickStates_cargoLoadingState _ _ _ _ hc]
        exact ih _ s
    · rw [finalizingTicks_of_canceled _ _ _ hc, tickStates_of_canceled _ _ _ hc]
      exact ⟨[], rfl, by simp⟩

theorem filterMap_eq_replicate (l : List (Node × Session)) (c : InfrastructureCommand)
    (h : ∀ p ∈ l, tickCommand p = some c) :
    l.filterMap tickCommand = List.replicate l.length c := by
  induction l with
  | nil => rfl
  | cons a l ih =>
    rw [List.filterMap_cons, h a (List.mem_cons_self _ _), List.length_cons,
      List.replicate_succ, ih (fun p hp => h p (List.mem_cons_of_mem _ hp))]

/-- The commands published on the ticks that end with `finalize_` set: one `SEND_ZERO`
for the session's facility on each. -/
theorem finalizingTicks_commands (n : Node) (s : Session) (es : List Event) :
    (finalizingTicks n s es).filterMap tickCommand =
      List.replicate (finalizingTicks n s es).length
        { id := s.request_value, state := CmdState.SEND_ZERO } := by
  apply filterMap_eq_replicate
  intro p hp
  have hmem := List.mem_filter.mp hp
  obtain ⟨c, h1, h2⟩ := tickCommand_of_finalize_after p.1 p.2 (by simpa using hmem.2)
  have h3 := tickCommand_id p c h1
  rw [tickStates_request_value es n s p hmem.1] at h3
  rw [h1]
  obtain ⟨cid, cst⟩ := c
  simp only at h2 h3
  rw [h2, h3]

/-! ## The claims -/

/-- C1: the command policy of one tick. With `finalize_` set the tick publishes
`SEND_ZERO`. With `finalize_` clear and a status other than `NONE` it publishes `ERROR`
for `AW_EMERGENCY` (flag unchanged), `SEND_ZERO` for `AW_OUT_OF_PARKING` and
`AW_UNAVAILABLE` (flag set afterwards), and `REQUESTING` for every other status (flag
unchanged). -/
theorem C1_command_policy (n : Node) (s : Session) :
    (n.finalize = true →
      (timerCallback n s).2.published =
        s.published ++ [{ id := s.request_value, state := CmdState.SEND_ZERO }]) ∧
    (n.finalize = false → n.aw_state ≠ AwState.NONE →
      (n.aw_state = AwState.AW_EMERGENCY →
        (timerCallback n s).2.published =
          s.published ++ [{ id := s.request_value, state := CmdState.ERROR }] ∧
        (timerCallback n s).1.finalize = n.finalize) ∧
      (n.aw_state = AwState.AW_OUT_OF_PARKING ∨ n.aw_state = AwState.AW_UNAVAILABLE →
        (timerCallback n s).2.published =
          s.published ++ [{ id := s.request_value, state := CmdState.SEND_ZERO }] ∧
        (timerCallback n s).1.finalize = true) ∧
      (n.aw_state ≠ AwState.AW_EMERGENCY → n.aw_state ≠ AwState.AW_OUT_OF_PARKING →
        n.aw_state ≠ AwState.AW_UNAVAILABLE →
        (timerCallback n s).2.published =
          s.published ++ [{ id := s.request_value, state := CmdState.REQUESTING }] ∧
        (timerCallback n s).1.finalize = n.finalize)) := by
  refine ⟨timerCallback_published_of_finalize n s, ?_⟩
  intro hf hne
  refine ⟨?_, ?_, ?_⟩
  · intro he
    simp [timerCallback, evalCommand, getCommandState, hf, he]
  · intro ho
    rcases ho with ho | ho <;>
      · simp only [timerCallback, evalCommand, getCommandState, hf, ho]
        simp
        split_ifs <;> simp
  · intro h1 h2 h3
    simp [timerCallback, evalCommand, getCommandState, hf, hne, h1, h2, h3]

/-- C1 at concrete inputs: one tick for each row of the table. -/
theorem C1_command_policy_witness :
    (timerCallback ⟨AwState.AW_EMERGENCY, true, "A"⟩ (initSession 5 "A")).2.published =
        [{ id := "A", state := CmdState.SEND_ZERO }] ∧
      ((timerCallback ⟨AwState.AW_EMERGENCY, false, "A"⟩ (initSession 5 "A")).2.published =
          [{ id := "A", state := CmdState.ERROR }] ∧
        (timerCallback ⟨AwState.AW_EMERGENCY, false, "A"⟩ (initSession 5 "A")).1.finalize
          = false) ∧
      ((timerCallback ⟨AwState.AW_UNAVAILABLE, false, "A"⟩ (initSession 5 "A")).2.published =
          [{ id := "A", state := CmdState.SEND_ZERO }] ∧
        (timerCallback ⟨AwState.AW_UNAVAILABLE, false, "A"⟩ (initSession 5 "A")).1.finalize
          = true) ∧
      ((timerCallback ⟨AwState.AW_OTHER, false, "A"⟩ (initSession 5 "A")).2.published =
          [{ id := "A", state := CmdState.REQUESTING }] ∧
        (timerCallback ⟨AwState.AW_OTHER, false, "A"⟩ (initSession 5 "A")).1.finalize
          = false) :=
  ⟨(C1_command_policy ⟨AwState.AW_EMERGENCY, true, "A"⟩ (initSession 5 "A")).1 rfl,
   ((C1_command_policy ⟨AwState.AW_EMERGENCY, false, "A"⟩ (initSession 5 "A")).2 rfl
      (by decide)).1 rfl,
   ((C1_command_policy ⟨AwState.AW_UNAVAILABLE, false, "A"⟩ (initSession 5 "A")).2 rfl
      (by decide)).2.1 (Or.inr rfl),
   ((C1_command_policy ⟨AwState.AW_OTHER, false, "A"⟩ (initSession 5 "A")).2 rfl
      (by decide)).2.2 (by decide) (by decide) (by decide)⟩

/-- C2: once `finalize_` is set during a session (after any prefix `es1` of the session's
events), every command published by the rest of the session, whatever notifications and
ticks `es2` it is made of, has state `SEND_ZERO`. -/
theorem C2_finalizing_forces_zero (n : Node) (s : Session) (es1 es2 : List Event)
    (h : (runTimer n s es1).1.finalize = true) :
    ∃ k, statesOf (runTimer n s (es1 ++ es2)).2.1.published =
      statesOf (runTimer n s es1).2.1.published ++ List.replicate k CmdState.SEND_ZERO := by
  rw [runTimer_append]
  split_ifs with hc
  · exact ⟨0, by simp⟩
  · exact (runTimer_finalize es2 _ _ h).2

/-- C2 at a concrete session: an approval latches `finalize_` after the first tick; the
later ticks publish `SEND_ZERO` although the status turns to emergency. -/
theorem C2_finalizing_forces_zero_witness :
    (runTimer ⟨AwState.AW_OTHER, false, "A"⟩ (initSession 5 "A")
        [Event.tick, Event.cargoLoadingState [⟨"A", true⟩]]).1.finalize = true ∧
    ∃ k, statesOf (runTimer ⟨AwState.AW_OTHER, false, "A"⟩ (initSession 5 "A")
        ([Event.tick, Event.cargoLoadingState [⟨"A", true⟩]] ++
          [Event.inParkingState AwState.AW_EMERGENCY, Event.tick,
            Event.cargoLoadingState [⟨"A", false⟩], Event.tick])).2.1.published =
      statesOf (runTimer ⟨AwState.AW_OTHER, false, "A"⟩ (initSession 5 "A")
        [Event.tick, Event.cargoLoadingState [⟨"A", true⟩]]).2.1.published ++
        List.replicate k CmdState.SEND_ZERO :=
  ⟨by decide, C2_finalizing_forces_zero _ _ _ _ (by decide)⟩

/-- C3, as stated, fails on the scenario: at 5 Hz with status normal on tick 1 and an
approval for facility "A" before tick 2, the handler is still waiting after tick 11, and a
twelfth tick is published (eleven `SEND_ZERO` commands, ticks 2 to 12). -/
theorem C3_scenario_counterexample :
    execCargoLoading 5 ⟨AwState.AW_OTHER, false, ""⟩ "A"
        (Event.tick :: Event.cargoLoadingState [⟨"A", true⟩] :: List.replicate 10 Event.tick)
      = none ∧
    (execCargoLoading 5 ⟨AwState.AW_OTHER, false, ""⟩ "A"
        (Event.tick :: Event.cargoLoadingState [⟨"A", true⟩] ::
          List.replicate 11 Event.tick)).map (fun o => statesOf o.published)
      = some (CmdState.REQUESTING :: List.replicate 11 CmdState.SEND_ZERO) := by
  simp only [execCargoLoading, initSession, finalizingPubLimit_five]
  constructor <;> decide

/-- C3, amended: in a session whose `finalize_` is set and whose timer runs, the timer
is cancelled exactly by tick number `(limit - count) + 1` from there, not by an earlier
one, and no later tick is published; every one of these ticks publishes `SEND_ZERO`. With
the counter at 0 (the flag latched by an approval) that is `limit + 1` ticks. At 5 Hz
with status normal on tick 1 and an approval for the facility before tick 2, tick 1 is
`REQUESTING`, ticks 2 to 12 are `SEND_ZERO`, the handler is still waiting after tick 11
and returns `SUCCESS` after tick 12 (a further tick is not consumed). -/
theorem C3_finalize_countdown (n : Node) (s : Session) (es : List Event)
    (hf : n.finalize = true) (hc : s.canceled = false) :
    ((runTimer n s es).2.1.canceled = true ↔
      (s.finalizing_pub_limit - s.finalizing_pub_count).toNat + 1 ≤ countTicks es) ∧
    statesOf (runTimer n s es).2.1.published =
      statesOf s.published ++
        List.replicate
          (min (countTicks es) ((s.finalizing_pub_limit - s.finalizing_pub_count).toNat + 1))
          CmdState.SEND_ZERO ∧
    execCargoLoading 5 ⟨AwState.AW_OTHER, false, ""⟩ "A"
        (Event.tick :: Event.cargoLoadingState [⟨"A", true⟩] :: List.replicate 10 Event.tick)
      = none ∧
    execCargoLoading 5 ⟨AwState.AW_OTHER, false, ""⟩ "A"
        (Event.tick :: Event.cargoLoadingState [⟨"A", true⟩] :: List.replicate 12 Event.tick)
      = some { result := TaskResult.SUCCESS
               published := { id := "A", state := CmdState.REQUESTING } ::
                 List.replicate 11 { id := "A", state := CmdState.SEND_ZERO }
               node := ⟨AwState.AW_OTHER, false, ""⟩
               rest := [Event.tick] } := by
  obtain ⟨h1, h2, _⟩ := runTimer_countdown es n s hf hc
  refine ⟨h1, h2, ?_⟩
  simp only [execCargoLoading, initSession, finalizingPubLimit_five]
  constructor <;> decide

/-- C3 (amended) at a concrete session: limit 10, counter 0, eleven ticks interleaved with
notifications cancel the timer. -/
theorem C3_finalize_countdown_witness :
    ((runTimer ⟨AwState.AW_OTHER, true, "A"⟩
        { request_value := "A", finalizing_pub_limit := 10, finalizing_pub_count := 0,
          response := TaskResult.SUCCESS, canceled := false, published := [] }
        (Event.inParkingState AwState.AW_EMERGENCY ::
          List.replicate 11 Event.tick)).2.1.canceled = true) ∧
    ¬ ((runTimer ⟨AwState.AW_OTHER, true, "A"⟩
        { request_value := "A", finalizing_pub_limit := 10, finalizing_pub_count := 0,
          response := TaskResult.SUCCESS, canceled := false, published := [] }
        (Event.inParkingState AwState.AW_EMERGENCY ::
          List.replicate 10 Event.tick)).2.1.canceled = true) :=
  ⟨(C3_finalize_countdown ⟨AwState.AW_OTHER, true, "A"⟩
      { request_value := "A", finalizing_pub_limit := 10, finalizing_pub_count := 0,
        response := TaskResult.SUCCESS, canceled := false, published := [] }
      (Event.inParkingState AwState.AW_EMERGENCY :: List.replicate 11 Event.tick)
      rfl rfl).1.mpr (by decide),
   fun h => absurd ((C3_finalize_countdown ⟨AwState.AW_OTHER, true, "A"⟩
      { request_value := "A", finalizing_pub_limit := 10, finalizing_pub_count := 0,
        response := TaskResult.SUCCESS, canceled := false, published := [] }
      (Event.inParkingState AwState.AW_EMERGENCY :: List.replicate 10 Event.tick)
      rfl rfl).1.mp h) (by decide)⟩

/-- C4: a tick that finds `AW_EMERGENCY` with `finalize_` clear publishes `ERROR` and
leaves `finalize_` clear; and `onCargoLoadingState` run under `AW_EMERGENCY` changes nothing
in the node, whatever entries the notification has, an approved entry for the session's
facility included (`finalize_` keeps the value `fin` it had). -/
theorem C4_emergency_wins (facility : String) (s : Session) (fin : Bool)
    (before after : List InfrastructureState) :
    (timerCallback ⟨AwState.AW_EMERGENCY, false, facility⟩ s).2.published =
      s.published ++ [{ id := s.request_value, state := CmdState.ERROR }] ∧
    (timerCallback ⟨AwState.AW_EMERGENCY, false, facility⟩ s).1.finalize = false ∧
    onCargoLoadingState ⟨AwState.AW_EMERGENCY, fin, facility⟩
        (before ++ ⟨facility, true⟩ :: after) =
      ⟨AwState.AW_EMERGENCY, fin, facility⟩ := by
  refine ⟨by simp [timerCallback, evalCommand, getCommandState],
    by simp [timerCallback, evalCommand, getCommandState], ?_⟩
  generalize before ++ ⟨facility, true⟩ :: after = sts
  induction sts with
  | nil => rfl
  | cons st rest ih =>
    simpa [onCargoLoadingState, onCargoLoadingEntry] using ih

/-- C5, as stated, fails: with facility "B", status emergency throughout and an approval
for "B" between tick 1 and tick 2, it is not the case that `finalize_` is set and tick 2
publishes `SEND_ZERO`. -/
theorem C5_emergency_then_approval_counterexample :
    ¬ ((runTimer ⟨AwState.AW_EMERGENCY, false, "B"⟩ (initSession 5 "B")
          [Event.tick, Event.cargoLoadingState [⟨"B", true⟩], Event.tick]).1.finalize = true ∧
        statesOf (runTimer ⟨AwState.AW_EMERGENCY, false, "B"⟩ (initSession 5 "B")
          [Event.tick, Event.cargoLoadingState [⟨"B", true⟩], Event.tick]).2.1.published =
          [CmdState.ERROR, CmdState.SEND_ZERO]) := by
  decide

/-- C5, amended: in a session where the status is emergency on tick 1 and stays so, an
approval notification for the session's facility that arrives before tick 2 (with any
other entries around the approved one) leaves `finalize_` clear, and both tick 1 and
tick 2 publish `ERROR`; the timer keeps running. -/
theorem C5_emergency_then_approval (hz : ℚ) (facility : String)
    (before after : List InfrastructureState) :
    (runTimer ⟨AwState.AW_EMERGENCY, false, facility⟩ (initSession hz facility)
        [Event.tick, Event.cargoLoadingState (before ++ ⟨facility, true⟩ :: after),
          Event.tick]).1.finalize = false ∧
    (runTimer ⟨AwState.AW_EMERGENCY, false, facility⟩ (initSession hz facility)
        [Event.tick, Event.cargoLoadingState (before ++ ⟨facility, true⟩ :: after),
          Event.tick]).2.1.published =
      [{ id := facility, state := CmdState.ERROR }, { id := facility, state := CmdState.ERROR }] ∧
    (runTimer ⟨AwState.AW_EMERGENCY, false, facility⟩ (initSession hz facility)
        [Event.tick, Event.cargoLoadingState (before ++ ⟨facility, true⟩ :: after),
          Event.tick]).2.1.canceled = false := by
  have hn : onCargoLoadingState ⟨AwState.AW_EMERGENCY, false, facility⟩
      (before ++ ⟨facility, true⟩ :: after) = ⟨AwState.AW_EMERGENCY, false, facility⟩ := by
    generalize before ++ ⟨facility, true⟩ :: after = sts
    induction sts with
    | nil => rfl
    | cons st rest ih => simpa [onCargoLoadingState, onCargoLoadingEntry] using ih
  simp [runTimer, timerCallback, evalCommand, getCommandState, initSession, hn]

/-- C6, as stated, fails: a vehicle-status notification received before the first tick
may carry the value `NONE`; the first tick then records `FAIL`, cancels the timer and
publishes nothing. -/
theorem C6_none_notification_counterexample :
    execCargoLoading 5 ⟨AwState.AW_OTHER, false, ""⟩ "A"
        [Event.inParkingState AwState.NONE, Event.tick] =
      some { result := TaskResult.FAIL
             published := []
             node := ⟨AwState.NONE, false, ""⟩
             rest := [] } := by
  simp only [execCargoLoading, initSession, finalizingPubLimit_five]
  decide

/-- C6, amended: for every session in which a vehicle-status notification carrying a
value other than `NONE` is received before the first tick, and every vehicle-status
notification that follows carries a value other than `NONE` (any approval notifications,
any `finalize_` at the start), no tick records `FAIL`, and every tick publishes exactly
one command, whose state is the one the policy table gives for `finalize_` and the status
current at that tick. -/
theorem C6_no_fail_after_status (hz : ℚ) (n : Node) (facility : String) (v : AwState)
    (es : List Event) (hv : v ≠ AwState.NONE)
    (hes : ∀ aw, Event.inParkingState aw ∈ es → aw ≠ AwState.NONE) :
    (runTimer { n with facility_id := facility } (initSession hz facility)
        (Event.inParkingState v :: es)).2.1.response = TaskResult.SUCCESS ∧
    ∀ p ∈ tickStates { n with facility_id := facility } (initSession hz facility)
        (Event.inParkingState v :: es),
      ∃ st, policyTable p.1.finalize p.1.aw_state = some st ∧
        (timerCallback p.1 p.2).2.published = p.2.published ++ [{ id := facility, state := st }] ∧
        (timerCallback p.1 p.2).2.response = TaskResult.SUCCESS := by
  have hall : ∀ aw, Event.inParkingState aw ∈ Event.inParkingState v :: es →
      aw ≠ AwState.NONE := by
    intro aw h
    rcases List.mem_cons.mp h with h | h
    · cases h; exact hv
    · exact hes aw h
  rw [runTimer_inParkingState _ _ _ _ rfl, tickStates_inParkingState _ _ _ _ rfl]
  obtain ⟨h1, h2⟩ := runTimer_known_status es
    (onInParkingState { n with facility_id := facility } v) (initSession hz facility) rfl hv hes
  refine ⟨h1, ?_⟩
  intro p hp
  obtain ⟨j1, j2, j3⟩ := h2 p hp
  rcases timerCallback_cases p.1 p.2 with ⟨_, h0, _⟩ | ⟨_, st, n1, e0, _, _, _, e4, e5, _⟩
  · exact absurd h0 j1
  · refine ⟨st, ?_, ?_, by rw [e5]; exact j2⟩
    · rw [← evalCommand_policyTable, e0]; rfl
    · rw [e4, j3]; rfl

/-- C6 (amended) at a concrete session: status normal before the first tick, then an
emergency, then out-of-parking. -/
theorem C6_no_fail_after_status_witness :
    (runTimer { (⟨AwState.NONE, false, ""⟩ : Node) with facility_id := "A" } (initSession 5 "A")
        (Event.inParkingState AwState.AW_OTHER ::
          [Event.tick, Event.inParkingState AwState.AW_EMERGENCY, Event.tick,
            Event.inParkingState AwState.AW_OUT_OF_PARKING, Event.tick])).2.1.response =
      TaskResult.SUCCESS :=
  (C6_no_fail_after_status 5 ⟨AwState.NONE, false, ""⟩ "A" AwState.AW_OTHER
    [Event.tick, Event.inParkingState AwState.AW_EMERGENCY, Event.tick,
      Event.inParkingState AwState.AW_OUT_OF_PARKING, Event.tick]
    (by decide)
    (by
      intro aw h
      simp at h
      rcases h with rfl | rfl <;> decide)).1

/-- C7: for every facility id and rate, a session whose first tick finds status `NONE`
and `finalize_` clear returns `FAIL` on that tick: the timer is cancelled there (the
events `es` that follow are not consumed) and nothing was published. -/
theorem C7_no_status_fail (hz : ℚ) (facility old : String) (es : List Event) :
    execCargoLoading hz ⟨AwState.NONE, false, old⟩ facility (Event.tick :: es) =
      some { result := TaskResult.FAIL
             published := []
             node := ⟨AwState.NONE, false, ""⟩
             rest := es } ∧
    (timerCallback ⟨AwState.NONE, false, facility⟩ (initSession hz facility)).2.canceled = true ∧
    (timerCallback ⟨AwState.NONE, false, facility⟩ (initSession hz facility)).2.response =
      TaskResult.FAIL ∧
    (timerCallback ⟨AwState.NONE, false, facility⟩ (initSession hz facility)).2.published = [] := by
  refine ⟨?_, by simp [timerCallback, evalCommand], by simp [timerCallback, evalCommand],
    by simp [timerCallback, evalCommand, initSession]⟩
  have ht : timerCallback ⟨AwState.NONE, false, facility⟩ (initSession hz facility) =
      (⟨AwState.NONE, false, facility⟩,
        { initSession hz facility with response := TaskResult.FAIL, canceled := true }) := by
    simp [timerCallback, evalCommand]
  simp only [execCargoLoading]
  rw [runTimer_tick _ _ _ rfl]
  simp only [ht]
  rw [runTimer_of_canceled _ _ _ rfl]
  simp [initSession]

/-- C8: whenever `execCargoLoading` returns, the session was ended by its last executed
tick `p`; the result is `FAIL` exactly when that tick found `finalize_` clear and status
`NONE`, and `SUCCESS` in every other case, where the tick ended with `finalize_` set and
the counter not below the limit (the countdown was used up). A session that published
`ERROR` on an earlier tick still returns `SUCCESS`. -/
theorem C8_result_derivation (hz : ℚ) (n : Node) (facility : String) (es : List Event)
    (o : Outcome) (h : execCargoLoading hz n facility es = some o) :
    (∃ init p,
      tickStates { n with facility_id := facility } (initSession hz facility) es = init ++ [p] ∧
      (o.result = TaskResult.FAIL ↔ (p.1.finalize = false ∧ p.1.aw_state = AwState.NONE)) ∧
      (o.result = TaskResult.SUCCESS ↔ ¬ (p.1.finalize = false ∧ p.1.aw_state = AwState.NONE)) ∧
      (o.result = TaskResult.SUCCESS →
        (timerCallback p.1 p.2).1.finalize = true ∧
          finalizingPubLimit hz ≤ p.2.finalizing_pub_count)) ∧
    (execCargoLoading 5 ⟨AwState.AW_EMERGENCY, false, ""⟩ "A"
        (Event.tick :: Event.inParkingState AwState.AW_OTHER ::
          Event.cargoLoadingState [⟨"A", true⟩] :: List.replicate 11 Event.tick)).map
        (fun r => (r.result, statesOf r.published)) =
      some (TaskResult.SUCCESS, CmdState.ERROR :: List.replicate 11 CmdState.SEND_ZERO) := by
  constructor
  · simp only [execCargoLoading] at h
    split_ifs at h with hc
    obtain ⟨init, p, q1, q2, q3, q4, q5, q6, q7⟩ :=
      runTimer_terminating es { n with facility_id := facility } (initSession hz facility) rfl hc
    have hres : o.result = (timerCallback p.1 p.2).2.response := by
      have := Option.some.inj h
      rw [← this, q4]
    have hp : p.2.response = TaskResult.SUCCESS := q6 rfl
    refine ⟨init, p, q1, ?_⟩
    rcases timerCallback_cases p.1 p.2 with ⟨h0, h1, e0⟩ | ⟨hn, st, n1, _, e1, _, _, _, e5, _, _, e8⟩
    · have hf : o.result = TaskResult.FAIL := by rw [hres, e0]
      refine ⟨by simp [hf, h0, h1], by simp [hf, h0, h1], ?_⟩
      intro hs; rw [hf] at hs; cases hs
    · have hs : o.result = TaskResult.SUCCESS := by rw [hres, e5]; exact hp
      refine ⟨?_, ?_, ?_⟩
      · constructor
        · intro hf; rw [hs] at hf; cases hf
        · intro hh; exact absurd hh hn
      · exact ⟨fun _ => hn, fun _ => hs⟩
      · intro _
        obtain ⟨a, b⟩ := e8 q3 q2
        refine ⟨by rw [e1]; exact a, ?_⟩
        have hl : p.2.finalizing_pub_limit = finalizingPubLimit hz := q7
        rw [← hl]
        exact not_lt.mp b
  · simp only [execCargoLoading, initSession, finalizingPubLimit_five]
    decide

/-- C8 at a concrete session: the first tick finds no status and the handler returns
`FAIL`. -/
theorem C8_result_derivation_witness :
    ∃ init p,
      tickStates { (⟨AwState.NONE, false, ""⟩ : Node) with facility_id := "B" }
        (initSession 5 "B") [Event.tick] = init ++ [p] ∧
      ((⟨TaskResult.FAIL, [], ⟨AwState.NONE, false, ""⟩, []⟩ : Outcome).result = TaskResult.FAIL ↔
        (p.1.finalize = false ∧ p.1.aw_state = AwState.NONE)) :=
  let ⟨init, p, h1, h2, _⟩ := (C8_result_derivation 5 ⟨AwState.NONE, false, ""⟩ "B" [Event.tick]
    ⟨TaskResult.FAIL, [], ⟨AwState.NONE, false, ""⟩, []⟩
    (by simp only [execCargoLoading, initSession, finalizingPubLimit_five]; decide)).1
  ⟨init, p, h1, h2⟩

/-- C9, as stated, fails: at 2.25 Hz twice the rate is 4.5, the limit computed at session
start is 4 and the ceiling is 5. -/
theorem C9_truncation_counterexample :
    finalizingPubLimit (9 / 4) = 4 ∧ ⌈(2 : ℚ) * (9 / 4)⌉ = 5 := by
  constructor
  · have h : ((9 : ℚ) / 4 * 2) = (9 : ℤ) / ((2 : ℕ) : ℚ) := by norm_num
    rw [finalizingPubLimit_eq_floor _ (by norm_num) (by norm_num), h,
      Rat.floor_intCast_div_natCast]
    decide
  · rw [Int.ceil_eq_iff]
    norm_num

/-- C9, amended: for every positive publish rate whose double is below 2^31, the range in
which the cast to `int32_t` is defined, the limit computed at session start is twice the
rate truncated to an integer (its floor), an `int32_t` that is not negative; it equals the
ceiling of twice the rate exactly when twice the rate is an integer, and is one less
otherwise; it is 10 for the default rate 5.0. -/
theorem C9_finalize_limit (hz : ℚ) (h : 0 < hz) (hr : hz * 2 < 2147483648) :
    finalizingPubLimit hz = ⌊hz * 2⌋ ∧
    (0 ≤ finalizingPubLimit hz ∧ finalizingPubLimit hz ≤ INT32_MAX) ∧
    (finalizingPubLimit hz = ⌈hz * 2⌉ ↔ ∃ k : ℤ, hz * 2 = k) ∧
    ((¬ ∃ k : ℤ, hz * 2 = k) → finalizingPubLimit hz = ⌈hz * 2⌉ - 1) ∧
    finalizingPubLimit 5 = 10 := by
  have hfl := finalizingPubLimit_eq_floor hz h.le hr
  have hlo : (0 : Int) ≤ ⌊hz * 2⌋ := Int.floor_nonneg.mpr (by positivity)
  have hhi : ⌊hz * 2⌋ < 2147483648 := Int.floor_lt.mpr (by exact_mod_cast hr)
  have hiff : (⌊hz * 2⌋ = ⌈hz * 2⌉ ↔ ∃ k : ℤ, hz * 2 = k) := by
    constructor
    · intro he
      refine ⟨⌊hz * 2⌋, le_antisymm ?_ (Int.floor_le _)⟩
      calc hz * 2 ≤ ((⌈hz * 2⌉ : ℤ) : ℚ) := Int.le_ceil _
        _ = ((⌊hz * 2⌋ : ℤ) : ℚ) := by rw [he]
    · rintro ⟨k, hk⟩
      rw [hk, Int.floor_intCast, Int.ceil_intCast]
  refine ⟨hfl, by rw [hfl]; simp only [INT32_MAX]; omega, by rw [hfl]; exact hiff, ?_,
    finalizingPubLimit_five⟩
  intro hno
  rw [hfl]
  have h1 : ⌊hz * 2⌋ ≠ ⌈hz * 2⌉ := fun he => hno (hiff.mp he)
  have h2 := Int.floor_le_ceil (hz * 2)
  have h3 := Int.ceil_le_floor_add_one (hz * 2)
  omega

/-- C9 (amended) at the default rate 5.0. -/
theorem C9_finalize_limit_witness :
    (0 : ℚ) < 5 ∧ (5 : ℚ) * 2 < 2147483648 ∧ finalizingPubLimit 5 = ⌊(5 : ℚ) * 2⌋ :=
  ⟨by norm_num, by norm_num, (C9_finalize_limit 5 (by norm_num) (by norm_num)).1⟩

/-- C10 at the failing input: a first request for "A" finds no status and returns `FAIL`,
leaving `facility_id_` empty and `finalize_` clear. A facility notification whose entry has
the empty id and `approval` set then sets `finalize_` while no session is live, so the
next request, for "B", starts with `finalize_` set: with the status still `NONE` its ticks
publish `SEND_ZERO` eleven times and it returns `SUCCESS`. -/
theorem C10_entry_state_after_empty_id_approval :
    execCargoLoading 5 ⟨AwState.NONE, false, ""⟩ "A" [Event.tick] =
      some { result := TaskResult.FAIL
             published := []
             node := ⟨AwState.NONE, false, ""⟩
             rest := [] } ∧
    onCargoLoadingState ⟨AwState.NONE, false, ""⟩ [⟨"", true⟩] = ⟨AwState.NONE, true, ""⟩ ∧
    execCargoLoading 5 ⟨AwState.NONE, true, ""⟩ "B" (List.replicate 11 Event.tick) =
      some { result := TaskResult.SUCCESS
             published := List.replicate 11 { id := "B", state := CmdState.SEND_ZERO }
             node := ⟨AwState.NONE, false, ""⟩
             rest := [] } := by
  simp only [execCargoLoading, initSession, finalizingPubLimit_five]
  refine ⟨by decide, by decide, by decide⟩

/-- C11: `finalize_` is a one-way latch within a session. From a node with `finalize_`
set, a tick, a vehicle-status notification with any value, and a facility notification
with any contents (an entry for the session's facility with `approval` clear included)
all leave `finalize_` set, and so does every sequence of them. -/
theorem C11_finalize_latch (n : Node) (s : Session) (h : n.finalize = true) :
    (timerCallback n s).1.finalize = true ∧
    (∀ aw, (onInParkingState n aw).finalize = true) ∧
    (∀ states, (onCargoLoadingState n states).finalize = true) ∧
    (∀ before after,
      (onCargoLoadingState n (before ++ ⟨n.facility_id, false⟩ :: after)).finalize = true) ∧
    (∀ es, (runTimer n s es).1.finalize = true) := by
  refine ⟨by rw [timerCallback_node_of_finalize n s h]; exact h, fun _ => h,
    fun sts => onCargoLoadingState_finalize_of_true sts n h,
    fun _ _ => onCargoLoadingState_finalize_of_true _ n h,
    fun es => (runTimer_finalize es n s h).1⟩

/-- C11 at a concrete finalizing session: a non-approving notification for the facility,
an emergency and a tick leave the flag set. -/
theorem C11_finalize_latch_witness :
    (timerCallback ⟨AwState.AW_OTHER, true, "A"⟩ (initSession 5 "A")).1.finalize = true ∧
    (onCargoLoadingState ⟨AwState.AW_OTHER, true, "A"⟩ [⟨"A", false⟩]).finalize = true ∧
    (runTimer ⟨AwState.AW_OTHER, true, "A"⟩ (initSession 5 "A")
      [Event.cargoLoadingState [⟨"A", false⟩], Event.inParkingState AwState.AW_EMERGENCY,
        Event.tick]).1.finalize = true :=
  ⟨(C11_finalize_latch ⟨AwState.AW_OTHER, true, "A"⟩ (initSession 5 "A") rfl).1,
   (C11_finalize_latch ⟨AwState.AW_OTHER, true, "A"⟩ (initSession 5 "A") rfl).2.2.1 _,
   (C11_finalize_latch ⟨AwState.AW_OTHER, true, "A"⟩ (initSession 5 "A") rfl).2.2.2.2 _⟩

/-- C12: only an entry with the session's facility id and `approval` set counts. A
notification without such an entry leaves the node as it was (so `finalize_` is unchanged),
whatever other ids it approves and whether or not it lists the facility unapproved; a
notification with such an entry anywhere in it, handled while the status is not emergency,
leaves `finalize_` set. -/
theorem C12_matching_entry (n : Node) (states : List InfrastructureState) :
    ((∀ st ∈ states, ¬ (st.id = n.facility_id ∧ st.approval = true)) →
      onCargoLoadingState n states = n) ∧
    ((∃ st ∈ states, st.id = n.facility_id ∧ st.approval = true) →
      n.aw_state ≠ AwState.AW_EMERGENCY →
      (onCargoLoadingState n states).finalize = true) ∧
    (∀ before after, n.aw_state ≠ AwState.AW_EMERGENCY →
      (onCargoLoadingState n (before ++ ⟨n.facility_id, true⟩ :: after)).finalize = true) := by
  refine ⟨?_, ?_, ?_⟩
  · intro hno
    rw [onCargoLoadingState_eq]
    have : ¬ ∃ st ∈ states, st.id = n.facility_id ∧ st.approval = true := by
      rintro ⟨st, hst, hp⟩
      exact hno st hst hp
    simp [this]
  · intro hex ha
    rw [onCargoLoadingState_eq, if_pos ⟨hex, ha⟩]
  · intro before after ha
    rw [onCargoLoadingState_eq, if_pos ⟨⟨⟨n.facility_id, true⟩, by simp, rfl, rfl⟩, ha⟩]

/-- C12 at concrete notifications for facility "A": other ids approved and "A" listed
unapproved change nothing; an approved "A" in the middle of the list sets the flag. -/
theorem C12_matching_entry_witness :
    onCargoLoadingState ⟨AwState.AW_OTHER, false, "A"⟩ [⟨"B", true⟩, ⟨"A", false⟩, ⟨"", true⟩] =
      ⟨AwState.AW_OTHER, false, "A"⟩ ∧
    (onCargoLoadingState ⟨AwState.AW_OTHER, false, "A"⟩
      [⟨"B", true⟩, ⟨"A", true⟩, ⟨"A", false⟩]).finalize = true :=
  ⟨(C12_matching_entry ⟨AwState.AW_OTHER, false, "A"⟩
      [⟨"B", true⟩, ⟨"A", false⟩, ⟨"", true⟩]).1 (by decide),
   (C12_matching_entry ⟨AwState.AW_OTHER, false, "A"⟩
      [⟨"B", true⟩, ⟨"A", true⟩, ⟨"A", false⟩]).2.1 ⟨⟨"A", true⟩, by decide, rfl, rfl⟩
      (by decide)⟩

/-- C13, as stated, fails. With facility "A" and status normal, an approving notification
followed by a non-approving one before the tick: the tick finds `finalize_` set, the
stored-approval model's flag is clear. With an approving notification received during
emergency and the status back to normal before the ticks: the ticks find `finalize_` clear,
the stored-approval model's flag is set. -/
theorem C13_stored_approval_counterexample :
    (tickFlags ⟨AwState.AW_OTHER, false, "A"⟩ (initSession 5 "A")
        [Event.cargoLoadingState [⟨"A", true⟩], Event.cargoLoadingState [⟨"A", false⟩],
          Event.tick] = [true] ∧
      storedApprovalFlags "A" ⟨AwState.AW_OTHER, [], false⟩
        [Event.cargoLoadingState [⟨"A", true⟩], Event.cargoLoadingState [⟨"A", false⟩],
          Event.tick] = [false]) ∧
    (tickFlags ⟨AwState.AW_OTHER, false, "A"⟩ (initSession 5 "A")
        [Event.inParkingState AwState.AW_EMERGENCY, Event.cargoLoadingState [⟨"A", true⟩],
          Event.inParkingState AwState.AW_OTHER, Event.tick, Event.tick] = [false, false] ∧
      storedApprovalFlags "A" ⟨AwState.AW_OTHER, [], false⟩
        [Event.inParkingState AwState.AW_EMERGENCY, Event.cargoLoadingState [⟨"A", true⟩],
          Event.inParkingState AwState.AW_OTHER, Event.tick, Event.tick] = [true, true]) := by
  refine ⟨⟨by decide, by decide⟩, by decide, by decide⟩

/-- C13, amended: approval is evaluated when the notification is handled, and nothing is
stored. For every sequence of notifications and ticks of a session, the `finalize_` value
each executed tick finds is the flag of the arrival model, which sets finalizing on a
notification that has an approved entry for the session's facility while the status at
that moment is not emergency (and on a tick by case 4 of the table). So an approved entry
followed by a non-approving notification before the tick does finalize, and an approved
entry received during emergency does not finalize once the emergency is over. -/
theorem C13_approval_on_arrival (hz : ℚ) (n : Node) (facility : String) (es : List Event) :
    tickFlags { n with facility_id := facility } (initSession hz facility) es <+:
      arrivalFlags facility ⟨n.aw_state, n.finalize⟩ es ∧
    arrivalFlags "A" ⟨AwState.AW_OTHER, false⟩
      [Event.cargoLoadingState [⟨"A", true⟩], Event.cargoLoadingState [⟨"A", false⟩],
        Event.tick] = [true] ∧
    arrivalFlags "A" ⟨AwState.AW_OTHER, false⟩
      [Event.inParkingState AwState.AW_EMERGENCY, Event.cargoLoadingState [⟨"A", true⟩],
        Event.inParkingState AwState.AW_OTHER, Event.tick, Event.tick] = [false, false] :=
  ⟨tickFlags_prefix_arrivalFlags es { n with facility_id := facility } (initSession hz facility),
    by decide, by decide⟩

/-- C14: whenever `execCargoLoading` returns, with `SUCCESS` or with `FAIL`, the node it
leaves has `facility_id_` empty and `finalize_` clear, and the stored status is the one
the session ended with. -/
theorem C14_reset_on_return (hz : ℚ) (n : Node) (facility : String) (es : List Event)
    (o : Outcome) (h : execCargoLoading hz n facility es = some o) :
    o.node.facility_id = "" ∧ o.node.finalize = false ∧
    o.node.aw_state =
      (runTimer { n with facility_id := facility } (initSession hz facility) es).1.aw_state := by
  simp only [execCargoLoading] at h
  split_ifs at h
  have := Option.some.inj h
  rw [← this]
  exact ⟨rfl, rfl, rfl⟩

/-- C14 at two concrete sessions: one returns `SUCCESS` after finalizing, one returns
`FAIL`; both leave the reset fields. -/
theorem C14_reset_on_return_witness :
    (({ result := TaskResult.SUCCESS
        published := List.replicate 11 { id := "A", state := CmdState.SEND_ZERO }
        node := ⟨AwState.AW_UNAVAILABLE, false, ""⟩
        rest := [] } : Outcome).node.facility_id = "" ∧
      ({ result := TaskResult.SUCCESS
         published := List.replicate 11 { id := "A", state := CmdState.SEND_ZERO }
         node := ⟨AwState.AW_UNAVAILABLE, false, ""⟩
         rest := [] } : Outcome).node.finalize = false) ∧
    (({ result := TaskResult.FAIL, published := [], node := ⟨AwState.NONE, false, ""⟩,
        rest := [] } : Outcome).node.facility_id = "" ∧
      ({ result := TaskResult.FAIL, published := [], node := ⟨AwState.NONE, false, ""⟩,
         rest := [] } : Outcome).node.finalize = false) :=
  ⟨⟨(C14_reset_on_return 5 ⟨AwState.AW_UNAVAILABLE, false, "old"⟩ "A"
        (List.replicate 11 Event.tick) _
        (by simp only [execCargoLoading, initSession, finalizingPubLimit_five]; decide)).1,
    (C14_reset_on_return 5 ⟨AwState.AW_UNAVAILABLE, false, "old"⟩ "A"
        (List.replicate 11 Event.tick) _
        (by simp only [execCargoLoading, initSession, finalizingPubLimit_five]; decide)).2.1⟩,
   ⟨(C14_reset_on_return 5 ⟨AwState.NONE, false, "old"⟩ "A" [Event.tick] _
        (by simp only [execCargoLoading, initSession, finalizingPubLimit_five]; decide)).1,
    (C14_reset_on_return 5 ⟨AwState.NONE, false, "old"⟩ "A" [Event.tick] _
        (by simp only [execCargoLoading, initSession, finalizingPubLimit_five]; decide)).2.1⟩⟩

/-- C15, as stated, fails. From the same node two sessions for "A" return and are reset:
one ended with status normal, the other with status out-of-parking. A new request for "B"
with the same events (a tick, an approval for "B", eleven ticks) then publishes
`REQUESTING` followed by eleven `SEND_ZERO` from the first state and only eleven
`SEND_ZERO` from the second. -/
theorem C15_stored_status_counterexample :
    execCargoLoading 5 ⟨AwState.AW_OTHER, false, ""⟩ "A"
        (Event.cargoLoadingState [⟨"A", true⟩] :: List.replicate 11 Event.tick) =
      some { result := TaskResult.SUCCESS
             published := List.replicate 11 { id := "A", state := CmdState.SEND_ZERO }
             node := ⟨AwState.AW_OTHER, false, ""⟩
             rest := [] } ∧
    execCargoLoading 5 ⟨AwState.AW_OTHER, false, ""⟩ "A"
        (Event.inParkingState AwState.AW_OUT_OF_PARKING :: List.replicate 11 Event.tick) =
      some { result := TaskResult.SUCCESS
             published := List.replicate 11 { id := "A", state := CmdState.SEND_ZERO }
             node := ⟨AwState.AW_OUT_OF_PARKING, false, ""⟩
             rest := [] } ∧
    (execCargoLoading 5 ⟨AwState.AW_OTHER, false, ""⟩ "B"
        (Event.tick :: Event.cargoLoadingState [⟨"B", true⟩] ::
          List.replicate 11 Event.tick)).map (fun o => (o.result, statesOf o.published)) =
      some (TaskResult.SUCCESS, CmdState.REQUESTING :: List.replicate 11 CmdState.SEND_ZERO) ∧
    (execCargoLoading 5 ⟨AwState.AW_OUT_OF_PARKING, false, ""⟩ "B"
        (Event.tick :: Event.cargoLoadingState [⟨"B", true⟩] ::
          List.replicate 11 Event.tick)).map (fun o => (o.result, statesOf o.published)) =
      some (TaskResult.SUCCESS, List.replicate 11 CmdState.SEND_ZERO) := by
  simp only [execCargoLoading, initSession, finalizingPubLimit_five]
  refine ⟨by decide, by decide, by decide, by decide⟩

/-- C15, amended: take any two nodes left behind by sessions that returned (whatever
their rates, start nodes, facilities and events were). If they hold the same stored vehicle
status, a new request with the same rate, facility id and events runs identically from
both: the same session state after the events (so the same published commands) and the
same outcome (result, published commands, node left behind, events left over). If the
events begin with a vehicle-status notification this holds whatever the two stored
statuses are. -/
theorem C15_session_idempotence (hz1 hz2 : ℚ) (n1 n2 : Node) (f1 f2 : String)
    (es1 es2 : List Event) (o1 o2 : Outcome)
    (h1 : execCargoLoading hz1 n1 f1 es1 = some o1)
    (h2 : execCargoLoading hz2 n2 f2 es2 = some o2)
    (hz : ℚ) (facility : String) (es : List Event) :
    (o1.node.aw_state = o2.node.aw_state →
      runTimer { o1.node with facility_id := facility } (initSession hz facility) es =
        runTimer { o2.node with facility_id := facility } (initSession hz facility) es ∧
      execCargoLoading hz o1.node facility es = execCargoLoading hz o2.node facility es) ∧
    (∀ v,
      runTimer { o1.node with facility_id := facility } (initSession hz facility)
          (Event.inParkingState v :: es) =
        runTimer { o2.node with facility_id := facility } (initSession hz facility)
          (Event.inParkingState v :: es) ∧
      execCargoLoading hz o1.node facility (Event.inParkingState v :: es) =
        execCargoLoading hz o2.node facility (Event.inParkingState v :: es)) := by
  have r1 : o1.node.finalize = false := by
    simp only [execCargoLoading] at h1
    split_ifs at h1
    rw [← Option.some.inj h1]
  have r2 : o2.node.finalize = false := by
    simp only [execCargoLoading] at h2
    split_ifs at h2
    rw [← Option.some.inj h2]
  constructor
  · intro haw
    have hn : ({ o1.node with facility_id := facility } : Node) =
        { o2.node with facility_id := facility } := by
      rw [Node.mk.injEq]
      exact ⟨haw, by rw [r1, r2], rfl⟩
    have hrun : runTimer { o1.node with facility_id := facility }
        (initSession hz facility) es =
        runTimer { o2.node with facility_id := facility } (initSession hz facility) es := by
      rw [hn]
    refine ⟨hrun, ?_⟩
    simp only [execCargoLoading, hrun]
  · intro v
    have hn : onInParkingState { o1.node with facility_id := facility } v =
        onInParkingState { o2.node with facility_id := facility } v := by
      simp only [onInParkingState, Node.mk.injEq]
      exact ⟨trivial, by rw [r1, r2], trivial⟩
    have hrun : runTimer { o1.node with facility_id := facility } (initSession hz facility)
          (Event.inParkingState v :: es) =
        runTimer { o2.node with facility_id := facility } (initSession hz facility)
          (Event.inParkingState v :: es) := by
      rw [runTimer_inParkingState _ _ _ _ rfl, runTimer_inParkingState _ _ _ _ rfl, hn]
    refine ⟨hrun, ?_⟩
    simp only [execCargoLoading, hrun]

/-- C15 (amended) at concrete sessions. A request for "A" that returned `FAIL` with no
status and a request for "C" at 2.5 Hz that returned `SUCCESS` with status normal leave
nodes with different stored statuses. A new request for "B" whose events begin with a
status notification returns the same outcome from both: `SUCCESS` after `REQUESTING` and
eleven `SEND_ZERO`. -/
theorem C15_session_idempotence_witness :
    execCargoLoading 5 ⟨AwState.NONE, false, ""⟩ "B"
        (Event.inParkingState AwState.AW_OTHER :: Event.tick ::
          Event.cargoLoadingState [⟨"B", true⟩] :: List.replicate 11 Event.tick) =
      execCargoLoading 5 ⟨AwState.AW_OTHER, false, ""⟩ "B"
        (Event.inParkingState AwState.AW_OTHER :: Event.tick ::
          Event.cargoLoadingState [⟨"B", true⟩] :: List.replicate 11 Event.tick) ∧
    execCargoLoading 5 ⟨AwState.AW_OTHER, false, ""⟩ "B"
        (Event.inParkingState AwState.AW_OTHER :: Event.tick ::
          Event.cargoLoadingState [⟨"B", true⟩] :: List.replicate 11 Event.tick) =
      some { result := TaskResult.SUCCESS
             published := { id := "B", state := CmdState.REQUESTING } ::
               List.replicate 11 { id := "B", state := CmdState.SEND_ZERO }
             node := ⟨AwState.AW_OTHER, false, ""⟩
             rest := [] } :=
  ⟨((C15_session_idempotence 5 (5 / 2) ⟨AwState.NONE, false, ""⟩ ⟨AwState.AW_OTHER, false, ""⟩
      "A" "C" [Event.tick]
      (Event.cargoLoadingState [⟨"C", true⟩] :: List.replicate 6 Event.tick)
      { result := TaskResult.FAIL, published := [], node := ⟨AwState.NONE, false, ""⟩,
        rest := [] }
      { result := TaskResult.SUCCESS
        published := List.replicate 6 { id := "C", state := CmdState.SEND_ZERO }
        node := ⟨AwState.AW_OTHER, false, ""⟩
        rest := [] }
      (by simp only [execCargoLoading, initSession, finalizingPubLimit_five]; decide)
      (by
        have h : finalizingPubLimit (5 / 2) = 5 := by
          have e : ((5 : ℚ) / 2 * 2) = ((5 : ℤ) : ℚ) := by norm_num
          simp only [finalizingPubLimit, truncToInt32, e, Rat.num_intCast, Rat.den_intCast]
          decide
        simp only [execCargoLoading, initSession, h]
        decide)
      5 "B"
      (Event.tick :: Event.cargoLoadingState [⟨"B", true⟩] :: List.replicate 11 Event.tick)).2
      AwState.AW_OTHER).2,
   by simp only [execCargoLoading, initSession, finalizingPubLimit_five]; decide⟩

/-- C18: the two notification handlers touch different fields. `onInParkingState` stores
the notified status and leaves `finalize_` and `facility_id_` as they were;
`onCargoLoadingState` leaves the stored status and `facility_id_` as they were and either
leaves `finalize_` as it was or sets it: it never clears a set flag. -/
theorem C18_handler_frames (n : Node) (aw : AwState) (states : List InfrastructureState) :
    ((onInParkingState n aw).aw_state = aw ∧
      (onInParkingState n aw).finalize = n.finalize ∧
      (onInParkingState n aw).facility_id = n.facility_id) ∧
    ((onCargoLoadingState n states).aw_state = n.aw_state ∧
      (onCargoLoadingState n states).facility_id = n.facility_id ∧
      ((onCargoLoadingState n states).finalize = n.finalize ∨
        (n.finalize = false ∧ (onCargoLoadingState n states).finalize = true))) := by
  refine ⟨⟨rfl, rfl, rfl⟩, onCargoLoadingState_aw_state states n,
    onCargoLoadingState_facility_id states n, ?_⟩
  rw [onCargoLoadingState_finalize]
  cases n.finalize <;> cases isFacilityApproved n.facility_id n.aw_state states <;> simp

/-- C16: for a rate that is not negative and whose double is below 2^31, so that the
limit is twice the rate truncated to an `int32_t` and is not negative, and for every
sequence of ticks and notifications. The published stream of a session is the commands of
the ticks that end with `finalize_` clear followed by one `SEND_ZERO` for each tick that
ends with `finalize_` set; there are at most `limit + 1` such ticks and the counter stays
within `0..limit` before and after every tick. A session that has such a tick and returns,
returns `SUCCESS` after publishing exactly `limit + 1` `SEND_ZERO` commands on them, the
last of them on the last tick executed (the timer is cancelled right after its publish);
and once there are `limit + 1` of them the handler returns. -/
theorem C16_finalizing_publish_count (hz : ℚ) (n : Node) (facility : String)
    (es : List Event) (h0 : 0 ≤ hz) (hr : hz * 2 < 2147483648) :
    (finalizingPubLimit hz = ⌊hz * 2⌋ ∧ 0 ≤ finalizingPubLimit hz ∧
      finalizingPubLimit hz ≤ INT32_MAX) ∧
    (∃ pre,
      tickStates { n with facility_id := facility } (initSession hz facility) es =
        pre ++ finalizingTicks { n with facility_id := facility } (initSession hz facility) es ∧
      (∀ q ∈ pre, (timerCallback q.1 q.2).1.finalize = false) ∧
      (runTimer { n with facility_id := facility } (initSession hz facility) es).2.1.published =
        pre.filterMap tickCommand ++
          List.replicate
            (finalizingTicks { n with facility_id := facility }
              (initSession hz facility) es).length
            { id := facility, state := CmdState.SEND_ZERO }) ∧
    (finalizingTicks { n with facility_id := facility } (initSession hz facility) es).length ≤
      (finalizingPubLimit hz).toNat + 1 ∧
    (∀ o, execCargoLoading hz n facility es = some o →
      finalizingTicks { n with facility_id := facility } (initSession hz facility) es ≠ [] →
      o.result = TaskResult.SUCCESS ∧
      (finalizingTicks { n with facility_id := facility }
        (initSession hz facility) es).length = (finalizingPubLimit hz).toNat + 1 ∧
      (∃ init p,
        tickStates { n with facility_id := facility } (initSession hz facility) es =
          init ++ [p] ∧
        (finalizingTicks { n with facility_id := facility }
          (initSession hz facility) es).getLast? = some p) ∧
      ∃ pre,
        tickStates { n with facility_id := facility } (initSession hz facility) es =
          pre ++
            finalizingTicks { n with facility_id := facility } (initSession hz facility) es ∧
        (∀ q ∈ pre, (timerCallback q.1 q.2).1.finalize = false) ∧
        o.published =
          pre.filterMap tickCommand ++
            List.replicate ((finalizingPubLimit hz).toNat + 1)
              { id := facility, state := CmdState.SEND_ZERO }) ∧
    ((finalizingTicks { n with facility_id := facility }
        (initSession hz facility) es).length = (finalizingPubLimit hz).toNat + 1 →
      ∃ o, execCargoLoading hz n facility es = some o ∧ o.result = TaskResult.SUCCESS) ∧
    (∀ p ∈ tickStates { n with facility_id := facility } (initSession hz facility) es,
      0 ≤ p.2.finalizing_pub_count ∧ p.2.finalizing_pub_count ≤ finalizingPubLimit hz ∧
      0 ≤ (timerCallback p.1 p.2).2.finalizing_pub_count ∧
      (timerCallback p.1 p.2).2.finalizing_pub_count ≤ finalizingPubLimit hz) := by
  have hfl := finalizingPubLimit_eq_floor hz h0 hr
  have hlo : (0 : Int) ≤ ⌊hz * 2⌋ := Int.floor_nonneg.mpr (by positivity)
  have hhi : ⌊hz * 2⌋ < 2147483648 := Int.floor_lt.mpr (by exact_mod_cast hr)
  have hl : 0 ≤ finalizingPubLimit hz := by rw [hfl]; exact hlo
  obtain ⟨m1, m2, _, m4⟩ := runTimer_finalizingTicks es { n with facility_id := facility }
    (initSession hz facility) rfl rfl hl
  have hL : ((initSession hz facility).finalizing_pub_limit -
      (initSession hz facility).finalizing_pub_count).toNat = (finalizingPubLimit hz).toNat := by
    simp [initSession]
  rw [hL] at m1 m2
  obtain ⟨pre, hsplit, hpre⟩ := tickStates_split es { n with facility_id := facility }
    (initSession hz facility)
  have hpub : (runTimer { n with facility_id := facility }
      (initSession hz facility) es).2.1.published =
      pre.filterMap tickCommand ++
        List.replicate
          (finalizingTicks { n with facility_id := facility }
            (initSession hz facility) es).length
          { id := facility, state := CmdState.SEND_ZERO } := by
    rw [runTimer_published, hsplit, List.filterMap_append, finalizingTicks_commands]
    rfl
  refine ⟨⟨hfl, hl, by rw [hfl]; simp only [INT32_MAX]; omega⟩, ⟨pre, hsplit, hpre, hpub⟩,
    m1, ?_, ?_, ?_⟩
  · intro o ho hne
    simp only [execCargoLoading] at ho
    split_ifs at ho with hcan
    have hres : o.result = (runTimer { n with facility_id := facility }
        (initSession hz facility) es).2.1.response := by
      rw [← Option.some.inj ho]
    have hop : o.published = (runTimer { n with facility_id := facility }
        (initSession hz facility) es).2.1.published := by
      rw [← Option.some.inj ho]
    have hsucc : o.result = TaskResult.SUCCESS := by
      cases hr : o.result
      · rfl
      · rw [hres] at hr
        exact absurd (runTimer_fail es _ _ rfl rfl hr).2.1 hne
    have hlen := m2.mp ⟨hcan, by rw [← hres]; exact hsucc⟩
    refine ⟨hsucc, hlen, ?_, ⟨pre, hsplit, hpre, by rw [hop, hpub, hlen]⟩⟩
    obtain ⟨init, p, q1, q2, q3, q4, _, _, _⟩ :=
      runTimer_terminating es { n with facility_id := facility } (initSession hz facility)
        rfl hcan
    refine ⟨init, p, q1, ?_⟩
    have hpf : (timerCallback p.1 p.2).1.finalize = true := by
      rcases timerCallback_cases p.1 p.2 with ⟨_, _, e0⟩ | ⟨_, _, n1, _, e1, _, _, _, _, _, _, e8⟩
      · rw [hres, q4, e0] at hsucc
        cases hsucc
      · rw [e1]
        exact (e8 q3 q2).1
    simp only [finalizingTicks, q1, List.filter_append, List.filter_cons, hpf, if_true,
      List.filter_nil, List.getLast?_concat]
  · intro hlen
    obtain ⟨hcan, hresp⟩ := m2.mpr hlen
    cases hE : execCargoLoading hz n facility es with
    | none => simp [execCargoLoading, hcan] at hE
    | some o =>
      refine ⟨o, rfl, ?_⟩
      simp only [execCargoLoading, hcan, if_true] at hE
      rw [← Option.some.inj hE]
      exact hresp
  · intro p hp
    obtain ⟨b1, b2, b3⟩ := m4 p hp
    have c1 : p.2.finalizing_pub_limit = finalizingPubLimit hz := b1
    have c2 : 0 ≤ p.2.finalizing_pub_count := b2
    have c3 : p.2.finalizing_pub_count ≤ finalizingPubLimit hz := b3
    refine ⟨c2, c3, ?_⟩
    rw [timerCallback_session]
    split
    · exact ⟨c2, c3⟩
    · split_ifs with _ hlt
      · constructor
        · show 0 ≤ p.2.finalizing_pub_count + 1
          omega
        · show p.2.finalizing_pub_count + 1 ≤ finalizingPubLimit hz
          omega
      · exact ⟨c2, c3⟩
      · exact ⟨c2, c3⟩

/-- C16 at a concrete session at 5 Hz (limit 10): status normal, an approval, then ticks
interleaved with an emergency and a non-approving notification. The handler returns
`SUCCESS`; what it published is `REQUESTING` from the first tick followed by eleven
`SEND_ZERO` commands. -/
theorem C16_finalizing_publish_count_witness :
    ((0 : ℚ) ≤ 5 ∧ (5 : ℚ) * 2 < 2147483648) ∧
    ∃ pre : List (Node × Session),
      (∀ q ∈ pre, (timerCallback q.1 q.2).1.finalize = false) ∧
      ({ id := "A", state := CmdState.REQUESTING } ::
          List.replicate 11 { id := "A", state := CmdState.SEND_ZERO } :
          List InfrastructureCommand) =
        pre.filterMap tickCommand ++
          List.replicate ((finalizingPubLimit 5).toNat + 1)
            { id := "A", state := CmdState.SEND_ZERO } :=
  ⟨⟨by norm_num, by norm_num⟩,
   let ⟨pre, _, h2, h3⟩ :=
    ((C16_finalizing_publish_count 5 ⟨AwState.AW_OTHER, false, ""⟩ "A"
      (Event.tick :: Event.cargoLoadingState [⟨"A", true⟩] :: Event.tick ::
        Event.inParkingState AwState.AW_EMERGENCY :: Event.cargoLoadingState [⟨"A", false⟩] ::
        List.replicate 10 Event.tick)
      (by norm_num) (by norm_num)).2.2.2.1
      { result := TaskResult.SUCCESS
        published := { id := "A", state := CmdState.REQUESTING } ::
          List.replicate 11 { id := "A", state := CmdState.SEND_ZERO }
        node := ⟨AwState.AW_EMERGENCY, false, ""⟩
        rest := [] }
      (by simp only [execCargoLoading, initSession, finalizingPubLimit_five]; decide)
      (by simp only [initSession, finalizingPubLimit_five]; decide)).2.2.2
   ⟨pre, h2, h3⟩⟩

/-- C17: a session that returns `SUCCESS` published at least one command and the last one
has state `SEND_ZERO`. A session that returns `FAIL` published nothing on its last executed
tick: its commands are those of the earlier ticks, one for each, and each of those ticks
found a status other than `NONE`. -/
theorem C17_published_by_result (hz : ℚ) (n : Node) (facility : String) (es : List Event)
    (o : Outcome) (h : execCargoLoading hz n facility es = some o) :
    (o.result = TaskResult.SUCCESS →
      ∃ earlier c, o.published = earlier ++ [c] ∧ c.state = CmdState.SEND_ZERO) ∧
    (o.result = TaskResult.FAIL →
      ∃ init p,
        tickStates { n with facility_id := facility } (initSession hz facility) es =
          init ++ [p] ∧
        tickCommand p = none ∧
        o.published = init.filterMap tickCommand ∧
        o.published.length = init.length ∧
        ∀ q ∈ init, q.1.aw_state ≠ AwState.NONE ∧ (tickCommand q).isSome = true) := by
  simp only [execCargoLoading] at h
  split_ifs at h with hcan
  have ho := Option.some.inj h
  have hres : o.result = (runTimer { n with facility_id := facility }
      (initSession hz facility) es).2.1.response := by rw [← ho]
  have hpub : o.published = (runTimer { n with facility_id := facility }
      (initSession hz facility) es).2.1.published := by rw [← ho]
  constructor
  · intro hsucc
    obtain ⟨init, p, _, q2, q3, q4, _, _, _⟩ :=
      runTimer_terminating es { n with facility_id := facility } (initSession hz facility)
        rfl hcan
    rcases timerCallback_cases p.1 p.2 with ⟨_, _, e0⟩ | ⟨_, st, n1, e0, _, _, _, e4, _, _, _, e8⟩
    · rw [hres, q4, e0] at hsucc
      cases hsucc
    · refine ⟨p.2.published, { id := p.2.request_value, state := st }, ?_, ?_⟩
      · rw [hpub, q4, e4]
      · exact evalCommand_zero_of_finalize_after p.1 n1 st e0 (e8 q3 q2).1
  · intro hfail
    rw [hres] at hfail
    obtain ⟨_, _, init, p, i3, i4, i5, i6, i7⟩ := runTimer_fail es _ _ rfl rfl hfail
    refine ⟨init, p, i3, i4, ?_, ?_, fun q hq => (i7 q hq).2⟩
    · rw [hpub, i5]; rfl
    · rw [hpub, i5]
      simpa [initSession] using i6

/-- C17 at a concrete session: status normal on two ticks, then a notification carrying
`NONE`; the third tick returns `FAIL`, and the two commands published came from the first
two ticks. -/
theorem C17_published_by_result_witness :
    ∃ init p,
      tickStates { (⟨AwState.AW_OTHER, false, ""⟩ : Node) with facility_id := "A" }
        (initSession 5 "A")
        [Event.tick, Event.tick, Event.inParkingState AwState.NONE, Event.tick] = init ++ [p] ∧
      tickCommand p = none ∧
      [({ id := "A", state := CmdState.REQUESTING } : InfrastructureCommand),
        { id := "A", state := CmdState.REQUESTING }] = init.filterMap tickCommand :=
  let ⟨init, p, h1, h2, h3, _⟩ :=
    (C17_published_by_result 5 ⟨AwState.AW_OTHER, false, ""⟩ "A"
      [Event.tick, Event.tick, Event.inParkingState AwState.NONE, Event.tick]
      { result := TaskResult.FAIL
        published := [{ id := "A", state := CmdState.REQUESTING },
          { id := "A", state := CmdState.REQUESTING }]
        node := ⟨AwState.NONE, false, ""⟩
        rest := [] }
      (by simp only [execCargoLoading, initSession, finalizingPubLimit_five]; decide)).2 rfl
  ⟨init, p, h1, h2, h3⟩

end CargoLoading
